import Mathlib

/-! # A2A protocol: contract package and concierge, embedded in Lean

Shallow embedding of `pkg/a2a` (types, validation, signing, HMAC middleware) and of
the concierge service (`services/concierge-go/main.go`).

Conventions of the embedding.

* A Go `string` and a Go `[]byte` are both a list of bytes (`Bytes`); `str "…"` is the
  byte string of an ASCII Go literal.
* Standard-library functions that the repository calls but does not define are
  parameters: SHA-256, HMAC, the RFC 3339 parser and `time.Unix` are the fields of
  `Stdlib`; the JSON codec and the HTTP client are fields of `Env`. Theorems are
  stated for all values of these fields. `strconv.ParseInt`, `hex.EncodeToString`,
  `subtle.ConstantTimeCompare` and `Time.Sub` are modelled from their documentation.
* A handler is a function from its inputs (the request as decoded, the store, the
  clock reading, the events its `select` observes) to what it leaves behind (the
  store, the reply, the HTTP requests it makes).
* `time.Time` is an instant, an integer number of nanoseconds since the Unix epoch;
  `time.Duration` is a 64-bit signed count of nanoseconds.
-/

set_option linter.dupNamespace false
set_option maxRecDepth 4096

namespace A2A

/-! ## Go strings and byte slices -/

/-- One byte. -/
abbrev Byte := Fin 256

/-- Go `string` / `[]byte`: a finite sequence of bytes. -/
abbrev Bytes := List Byte

/-- Byte string of an ASCII Go string literal. -/
def str (s : String) : Bytes := s.toList.map (fun c => Fin.ofNat c.toNat)

/-! ## pkg/a2a/types.go -/

/-- Go `type TaskStatus string`. -/
abbrev TaskStatus := Bytes

def StatusPending : TaskStatus := str "PENDING"
def StatusRunning : TaskStatus := str "RUNNING"
def StatusSucceeded : TaskStatus := str "SUCCEEDED"
def StatusFailed : TaskStatus := str "FAILED"

/-- Go `CreateTask` (the `Meta map[string]any` side channel is read by no function of the
repository and is left out). `Input` is a `json.RawMessage`, a byte slice; a nil slice
and an empty slice are both `[]`. -/
structure CreateTask where
  TaskType : Bytes
  Input : Bytes
  ReplyURL : Bytes
  IdempotencyKey : Bytes
deriving DecidableEq, Repr

/-! ## pkg/a2a/errors.go -/

def ErrValidationFailed : Bytes := str "VALIDATION_FAILED"
def ErrNotFound : Bytes := str "NOT_FOUND"
def ErrInternal : Bytes := str "INTERNAL"

structure ErrorPayload where
  Code : Bytes
  Message : Bytes
  Hint : Bytes
deriving DecidableEq, Repr

def NewError (code msg : Bytes) : ErrorPayload := { Code := code, Message := msg, Hint := [] }

/-- Go `Task`; `Error` is a pointer, `none` is nil. -/
structure Task where
  TaskID : Bytes
  Status : TaskStatus
  Result : Bytes
  Error : Option ErrorPayload
deriving DecidableEq, Repr

/-- Go `Event`. -/
structure Event where
  Event : Bytes
  TaskID : Bytes
  Payload : Bytes
deriving DecidableEq, Repr

/-! ## pkg/a2a/validate.go -/

/-- Go `ValidateCreateTask`: `none` is the nil error, `some msg` is `errors.New(msg)`. -/
def ValidateCreateTask (ct : CreateTask) : Option Bytes :=
  if ct.TaskType = [] then
    some (str "task_type is required")
  else if ct.Input.length = 0 then
    some (str "input is required")
  else
    none

/-- Go `CanTransition`: a switch on `from`, whose last two arms both return false. -/
def CanTransition (from_ to_ : TaskStatus) : Bool :=
  if from_ = StatusPending then
    to_ = StatusRunning || to_ = StatusSucceeded || to_ = StatusFailed
  else if from_ = StatusRunning then
    to_ = StatusSucceeded || to_ = StatusFailed
  else if from_ = StatusSucceeded ∨ from_ = StatusFailed then
    false
  else
    false

/-! ## Standard library used by pkg/a2a -/

/-- A SHA-256 digest: the `[32]byte` of `sha256.Sum256`, and the 32 bytes that
`Sum(nil)` of an HMAC-SHA256 returns. -/
abbrev Digest := { d : Bytes // d.length = 32 }

/-- Go `time.Time` as an instant: nanoseconds since the Unix epoch. -/
abbrev Time := Int

/-- Go `time.Duration`: nanoseconds, an `int64`. -/
abbrev Duration := Int

/-- The functions of the Go standard library that the package calls and whose bodies
are not part of the repository. -/
structure Stdlib where
  /-- Go `sha256.Sum256(data)`. -/
  sha256_Sum256 : Bytes → Digest
  /-- Go `m := hmac.New(sha256.New, key); m.Write(msg); m.Sum(nil)`. -/
  hmac_SHA256 : Bytes → Bytes → Digest
  /-- Go `time.Parse(time.RFC3339, v)`; `none` when it returns an error. -/
  time_ParseRFC3339 : Bytes → Option Time
  /-- Go `time.Unix(sec, 0).UTC()`. -/
  time_Unix : Int → Time

/-- Go `hextable` of `encoding/hex`. -/
def hextable : Bytes := str "0123456789abcdef"

/-- Go `hex.EncodeToString`: two lower-case hex digits per byte, `hextable[v>>4]` and
`hextable[v&0x0f]`. -/
def hex_EncodeToString : Bytes → Bytes
  | [] => []
  | v :: rest =>
    hextable.getD (v.val >>> 4) 0 :: hextable.getD (v.val &&& 0x0f) 0 :: hex_EncodeToString rest

/-- Go `subtle.ConstantTimeByteEq(x, y) = int((uint32(x^y) - 1) >> 31)`. -/
def subtle_ConstantTimeByteEq (x y : Byte) : Int :=
  ((((x ^^^ y).val + 2 ^ 32 - 1) % 2 ^ 32) >>> 31 : Nat)

/-- The loop of `subtle.ConstantTimeCompare`: `v |= x[i] ^ y[i]` for every index. -/
def constantTimeLoop : Byte → Bytes → Bytes → Byte
  | v, a :: x, b :: y => constantTimeLoop (v ||| (a ^^^ b)) x y
  | v, _, _ => v

/-- Go `subtle.ConstantTimeCompare(x, y)`. -/
def subtle_ConstantTimeCompare (x y : Bytes) : Int :=
  if x.length ≠ y.length then 0
  else subtle_ConstantTimeByteEq (constantTimeLoop 0 x y) 0

/-- Largest `time.Duration`, `1<<63 - 1`. -/
def maxDuration : Duration := 2 ^ 63 - 1

/-- Smallest `time.Duration`, `-1 << 63`. -/
def minDuration : Duration := -(2 ^ 63)

/-- Go `t.Sub(u)`: the duration `t - u`, or the maximum (minimum) duration when the
difference exceeds what a `Duration` can store. -/
def Time_Sub (t u : Time) : Duration :=
  if t - u > maxDuration then maxDuration
  else if t - u < minDuration then minDuration
  else t - u

/-- Go `time.Since(t)`, which is `time.Now().Sub(t)`; `now` is the clock reading. -/
def time_Since (now t : Time) : Duration := Time_Sub now t

/-- Value of a non-empty string of decimal digits; `none` if a byte is not a digit. -/
def parseDigits : Nat → Bytes → Option Nat
  | acc, [] => some acc
  | acc, c :: rest =>
    if 48 ≤ c.val ∧ c.val ≤ 57 then parseDigits (acc * 10 + (c.val - 48)) rest else none

/-- Go `strconv.ParseInt(s, 10, 64)`; `none` when it returns an error (empty string, a
byte that is not a decimal digit after an optional sign, or a value outside `int64`). -/
def strconv_ParseInt (s : Bytes) : Option Int :=
  let neg := s.head? = some 45
  let digits := if s.head? = some 43 ∨ s.head? = some 45 then s.tail else s
  if digits = [] then none
  else
    match parseDigits 0 digits with
    | none => none
    | some un =>
      if ¬ neg ∧ un ≥ 2 ^ 63 then none
      else if neg ∧ un > 2 ^ 63 then none
      else some (if neg then -(un : Int) else (un : Int))

/-! ## pkg/a2a/signing.go -/

def MakeHMACSHA256 (L : Stdlib) (secret payload : Bytes) : Bytes :=
  hex_EncodeToString (L.hmac_SHA256 secret payload).val

def VerifyHMACSHA256 (L : Stdlib) (secret payload hexSig : Bytes) : Bool :=
  let expect := MakeHMACSHA256 L secret payload
  if expect.length ≠ hexSig.length then
    false
  else
    subtle_ConstantTimeCompare expect hexSig == 1

def CanonicalString (L : Stdlib) (method path rawQuery body timestamp : Bytes) : Bytes :=
  let h := L.sha256_Sum256 body
  method ++ str "\n" ++ path ++ str "\n" ++ rawQuery ++ str "\n" ++
    hex_EncodeToString h.val ++ str "\n" ++ timestamp

/-! ## pkg/a2a/headers.go, pkg/a2a/middleware.go -/

def HeaderAgentID : Bytes := str "X-Agent-Id"
def HeaderSignature : Bytes := str "X-Agent-Signature"
def HeaderRequestTime : Bytes := str "X-Agent-Request-Time"

/-- Go `http.Header` as the list of its (canonical key, first value) pairs. -/
abbrev Header := List (Bytes × Bytes)

/-- Go `h.Get(key)`: the first value of the key, `""` when there is none. -/
def Header.Get (h : Header) (key : Bytes) : Bytes :=
  match h.lookup key with
  | some v => v
  | none => []

/-- What the middleware reads of an `*http.Request`. `Body` is the result of
`io.ReadAll(r.Body)`: `none` when it returns an error. -/
structure Request where
  Method : Bytes
  Path : Bytes
  RawQuery : Bytes
  Header : Header
  Body : Option Bytes
deriving DecidableEq, Repr

/-- What a handler does with a request: `http.Error(w, msg, code)`, or
`next.ServeHTTP(w, r)`. -/
inductive Response where
  | Error (msg : Bytes) (code : Nat)
  | ServeHTTP (r : Request)
deriving DecidableEq, Repr

def StatusUnauthorized : Nat := 401
def StatusBadRequest : Nat := 400

/-- Go `SecretProvider`: `some secret` for `(secret, true)`, `none` for `ok == false`. -/
abbrev SecretProvider := Bytes → Option Bytes

def stripAlgoPrefix (sig : Bytes) : Bytes :=
  let p := str "hmac-sha256:"
  if sig.length > p.length ∧ sig.take p.length = p then
    sig.drop p.length
  else
    sig

def parseHeaderTime (L : Stdlib) (v : Bytes) : Option Time :=
  match L.time_ParseRFC3339 v with
  | some t => some t
  | none =>
    match strconv_ParseInt v with
    | some sec => some (L.time_Unix sec)
    | none => none

/-- The clock-skew test of `HMACMiddleware` (lines 29-37): true when the request is
answered "request time skewed". For `clockSkew > 0` the negation `-clockSkew` does
not overflow. -/
def requestTimeSkewed (L : Stdlib) (clockSkew : Duration) (now : Time) (ts : Bytes) : Bool :=
  if ts ≠ [] ∧ clockSkew > 0 then
    match parseHeaderTime L ts with
    | some t =>
      let d := time_Since now t
      decide (d > clockSkew ∨ d < -clockSkew)
    | none => false
  else
    false

/-- Go `HMACMiddleware(sp, clockSkew)(next)` applied to a request, `now` being what
`time.Now()` returns. -/
def HMACMiddleware (L : Stdlib) (sp : SecretProvider) (clockSkew : Duration) (now : Time)
    (r : Request) : Response :=
  let agentID := r.Header.Get HeaderAgentID
  let sig := r.Header.Get HeaderSignature
  let ts := r.Header.Get HeaderRequestTime
  if agentID = [] ∨ sig = [] then
    Response.Error (str "missing A2A headers") StatusUnauthorized
  else if requestTimeSkewed L clockSkew now ts then
    Response.Error (str "request time skewed") StatusUnauthorized
  else
    match sp agentID with
    | none => Response.Error (str "unknown agent") StatusUnauthorized
    | some secret =>
      match r.Body with
      | none => Response.Error (str "read body failed") StatusBadRequest
      | some bodyBytes =>
        let bodyHash := L.sha256_Sum256 bodyBytes
        let bodyHashHex := hex_EncodeToString bodyHash.val
        let canon := r.Method ++ str "\n" ++ r.Path ++ str "\n" ++ r.RawQuery ++ str "\n" ++
          bodyHashHex ++ str "\n" ++ ts
        if ¬ VerifyHMACSHA256 L secret canon (stripAlgoPrefix sig) then
          Response.Error (str "invalid signature") StatusUnauthorized
        else
          Response.ServeHTTP { r with Body := some bodyBytes }

/-! ## A concrete standard library for evaluating the definitions -/

/-- A 32-byte stand-in digest used to run the definitions on concrete inputs (it is not
SHA-256): byte `i` is `(sum of the input bytes + i * (length + 1)) mod 256`. -/
def sampleDigest (b : Bytes) : Digest :=
  ⟨(List.range 32).map (fun i => Fin.ofNat ((b.map Fin.val).sum + i * (b.length + 1))),
    by simp⟩

/-- A concrete `Stdlib` for evaluation: stand-in digests, an RFC 3339 parser that
accepts no string (the inputs it is run on have no `T` and are not RFC 3339), and
`time.Unix` as seconds since the epoch. -/
def sampleStdlib : Stdlib where
  sha256_Sum256 := sampleDigest
  hmac_SHA256 := fun key msg => sampleDigest (key ++ 0 :: msg)
  time_ParseRFC3339 := fun _ => none
  time_Unix := fun sec => sec * 1000000000

/-- A secret provider that knows one agent. -/
def sampleSecrets : SecretProvider :=
  fun agentID => if agentID = str "agent-a" then some (str "s3cret") else none

/-- A request `POST /tasks` with body `{}` from `agent-a`, with the given signature and
request-time headers. -/
def sampleRequest (sig ts : Bytes) : Request where
  Method := str "POST"
  Path := str "/tasks"
  RawQuery := []
  Header := [(HeaderAgentID, str "agent-a"), (HeaderSignature, sig), (HeaderRequestTime, ts)]
  Body := some (str "\x7b\x7d")

/-- The signature header a client computes for `sampleRequest` with request time `ts`
under `sampleStdlib` and the secret of `agent-a`. -/
def sampleSignature (ts : Bytes) : Bytes :=
  str "hmac-sha256:" ++
    MakeHMACSHA256 sampleStdlib (str "s3cret")
      (CanonicalString sampleStdlib (str "POST") (str "/tasks") [] (str "\x7b\x7d") ts)

/-! ## services/concierge-go/main.go -/

/-- A Go `map[string]any` that JSON is decoded into or encoded from: `Nil` is the nil
map (which `json.Marshal` encodes as `null`), `Map kvs` a non-nil map with its keys,
each with its value (kept as JSON text). -/
inductive JSONMap where
  | Nil
  | Map (kvs : List (Bytes × Bytes))
deriving DecidableEq, Repr

/-- The keys of a map with their values; a nil map has none. -/
def JSONMap.entries : JSONMap → List (Bytes × Bytes)
  | JSONMap.Nil => []
  | JSONMap.Map kvs => kvs

/-- The `ok` of `_, ok := m[key]`. -/
def JSONMap.has (m : JSONMap) (key : Bytes) : Bool := (m.entries.lookup key).isSome

/-- The task store `st.m`, a `map[string]*a2a.Task`. All accesses hold `st.mu`. -/
abbrev Store := Bytes → Option Task

/-- Go `st.m[id] = t`. -/
def Store.put (st : Store) (id : Bytes) (t : Task) : Store :=
  fun k => if k = id then some t else st k

/-- The empty store a process starts with. -/
def Store.empty : Store := fun _ => none

/-- What a handler writes to the `http.ResponseWriter`. -/
inductive Reply where
  /-- Status 200 and `{"task_id": taskID, "status": status}`. -/
  | Ack (taskID : Bytes) (status : TaskStatus)
  /-- Go `w.WriteHeader(code)` and the encoded error payload. -/
  | Error (code : Nat) (e : ErrorPayload)
  /-- Go `w.WriteHeader(code)` (200 when not called) and the encoded task. -/
  | Task (code : Nat) (t : Task)
  /-- Go `w.WriteHeader(204)`, no body. -/
  | NoContent
deriving DecidableEq, Repr

/-- An HTTP request that the concierge makes. -/
inductive HTTPCall where
  /-- Go `http.Post(url, "application/json", body)`. -/
  | Post (url body : Bytes)
  /-- Go `http.Get(url)`. -/
  | Get (url : Bytes)
deriving DecidableEq, Repr

/-- The surroundings of the concierge: its configured URLs, `encoding/json`, and the
HTTP exchanges with the other agents. -/
structure Env where
  agentA : Bytes
  agentB : Bytes
  interpreter : Bytes
  /-- Go `json.Unmarshal(b, &raw)` into a nil `map[string]any`; the map stays nil when the
  input is not a JSON object (the error is discarded by the caller). -/
  json_UnmarshalMap : Bytes → JSONMap
  /-- Go `json.NewDecoder(body).Decode(&rmap)` into a nil `map[string]any`, error discarded. -/
  json_DecodeMap : Bytes → JSONMap
  /-- Go `json.NewDecoder(body).Decode(&ack)`: the `task_id` and `status` members, or the
  error text. -/
  json_DecodeAck : Bytes → Except Bytes (Bytes × Bytes)
  /-- Go `json.NewDecoder(body).Decode(&t)` for an `a2a.Task`, or the error text. -/
  json_DecodeTask : Bytes → Except Bytes Task
  /-- Go `json.Marshal(map[string]any{"quotes": quotes, "partial_failures": []any{}})`. -/
  json_MarshalQuotes : List JSONMap → Bytes
  /-- Go `json.Marshal(q)` for a `map[string]any`. -/
  json_MarshalMap : JSONMap → Bytes
  /-- Go `json.Marshal(e)` for an `*ErrorPayload`. -/
  json_MarshalError : ErrorPayload → Bytes
  /-- Go `json.Marshal(ct)` for a `CreateTask`. The `Input`, a `json.RawMessage`, is
  re-encoded (compacted), not copied. -/
  json_MarshalCreateTask : CreateTask → Bytes
  /-- The JSON text of a Go string held as a value of a `map[string]any`. -/
  json_MarshalString : Bytes → Bytes
  /-- Go `http.Post(url, "application/json", body)`: the response body, or the error text. -/
  http_Post : Bytes → Bytes → Except Bytes Bytes
  /-- Go `http.Get(url)`: the response body, or the error text. -/
  http_Get : Bytes → Except Bytes Bytes

/-- The call `http.Post(url, "application/json", body)`: what the peer answers, and the
request made. -/
def httpPost (E : Env) (url body : Bytes) : Except Bytes Bytes × List HTTPCall :=
  (E.http_Post url body, [HTTPCall.Post url body])

/-- The call `http.Get(url)`: what the peer answers, and the request made. -/
def httpGet (E : Env) (url : Bytes) : Except Bytes Bytes × List HTTPCall :=
  (E.http_Get url, [HTTPCall.Get url])

namespace Concierge

def RandID : Bytes := str "654321"

/-- Lines 54-68 of the `POST /tasks` handler: the value of `needsInterpret` once the
input has been inspected. -/
def needsInterpret (raw : JSONMap) : Bool :=
  let needsInterpret := false
  if raw.has (str "utterance") then
    true
  else
    let needsInterpret := if ¬ raw.has (str "from") then true else needsInterpret
    let needsInterpret := if ¬ raw.has (str "to") then true else needsInterpret
    let needsInterpret := if ¬ raw.has (str "parcel") then true else needsInterpret
    needsInterpret

/-- Go `postTask(baseURL, taskType, input)`: the decoded response and the error (nil is
`none`), with the requests it makes. Both arms of its final switch return
`rmap, nil`. -/
def postTask (E : Env) (baseURL taskType input : Bytes) :
    (JSONMap × Option Bytes) × List HTTPCall :=
  let req : CreateTask :=
    { TaskType := taskType, Input := input, ReplyURL := [], IdempotencyKey := [] }
  let b := E.json_MarshalCreateTask req
  match httpPost E (baseURL ++ str "/tasks") b with
  | (Except.error err, sent) => ((JSONMap.Nil, some err), sent)
  | (Except.ok respBody, sent) =>
    let rmap := E.json_DecodeMap respBody
    if taskType = str "QUOTE" then ((rmap, none), sent) else ((rmap, none), sent)

/-- Go `postInterpret(baseURL, userInput)`: the interpreter's result or the error text,
with the requests it makes. -/
def postInterpret (E : Env) (baseURL : Bytes) (userInput : JSONMap) :
    Except Bytes Bytes × List HTTPCall :=
  let userInput : JSONMap :=
    if ¬ userInput.has (str "utterance") then
      JSONMap.Map [(str "utterance", E.json_MarshalString (E.json_MarshalMap userInput))]
    else userInput
  let bIn := E.json_MarshalMap (JSONMap.Map
    [(str "utterance", (userInput.entries.lookup (str "utterance")).getD (str "null"))])
  let body : CreateTask :=
    { TaskType := str "INTERPRET", Input := bIn, ReplyURL := [], IdempotencyKey := [] }
  let b := E.json_MarshalCreateTask body
  match httpPost E (baseURL ++ str "/tasks") b with
  | (Except.error err, sent) => (Except.error err, sent)
  | (Except.ok respBody, sent) =>
    match E.json_DecodeAck respBody with
    | Except.error err => (Except.error err, sent)
    | Except.ok ack =>
      match httpGet E (baseURL ++ str "/tasks/" ++ ack.1) with
      | (Except.error err, sentGet) => (Except.error err, sent ++ sentGet)
      | (Except.ok grBody, sentGet) =>
        match E.json_DecodeTask grBody with
        | Except.error err => (Except.error err, sent ++ sentGet)
        | Except.ok t =>
          if t.Status ≠ StatusSucceeded then
            (Except.error (str "interpreter status=" ++ t.Status), sent ++ sentGet)
          else
            (Except.ok t.Result, sent ++ sentGet)

/-- The message a fan-out goroutine sends on `ch`. -/
structure qres where
  ok : Bool
  data : JSONMap
  err : Option Bytes
deriving DecidableEq, Repr

/-- The case that a `select` of the collection loop takes. -/
inductive SelectEvent where
  /-- Go `case r := <-ch`. -/
  | recv (r : qres)
  /-- Go `case <-timeout`, the 1800 ms timer. -/
  | timeout
  /-- Go `case <-ctx.Done()`, the deadline of the request context. -/
  | ctxDone
deriving DecidableEq, Repr

/-- The loop `for i := 0; i < 2; i++ { select { ... } }` with `n` iterations left,
over the events the successive `select`s observe. `none`: a `select` is reached with
no event left to observe. -/
def collectLoop : Nat → List SelectEvent → List JSONMap → Option (List JSONMap)
  | 0, _, quotes => some quotes
  | _ + 1, [], _ => none
  | n + 1, SelectEvent.recv r :: evs, quotes =>
    collectLoop n evs (if r.ok then quotes ++ [r.data] else quotes)
  | _ + 1, SelectEvent.timeout :: _, quotes => some quotes
  | _ + 1, SelectEvent.ctxDone :: _, quotes => some quotes

/-- The body of a fan-out goroutine (lines 90 and 91):
`q, err := postTask(agent, "QUOTE", quoteInput)`, the message it sends on `ch`, and
the requests it makes. -/
def fanOutBranch (E : Env) (agent quoteInput : Bytes) : qres × List HTTPCall :=
  match postTask E agent (str "QUOTE") quoteInput with
  | ((q, err), sent) => ({ ok := decide (err = none), data := q, err := err }, sent)

/-- What one run of a handler leaves behind: the store, the reply, and the HTTP
requests it makes, in program order (those of the two fan-out goroutines, which run
concurrently, in the order the goroutines are started). -/
structure Outcome where
  store : Store
  reply : Reply
  calls : List HTTPCall

/-- The `QUOTE` arm of the `POST /tasks` handler (lines 51-115). `quoteInput` is
`ct.Input`, or the interpreter's output when interpretation is needed; a failed
interpretation ends the request with status 400. The two goroutines are started with
`quoteInput`; which of their messages the collection loop receives, and when, is
given by `evs`. -/
def postTasksQuote (E : Env) (evs : List SelectEvent) (st : Store) (taskID : Bytes)
    (ct : CreateTask) : Option Outcome :=
  let raw := E.json_UnmarshalMap ct.Input
  let needs := needsInterpret raw
  match (if needs then postInterpret E E.interpreter raw else (Except.ok ct.Input, [])) with
  | (Except.error err, sentInterp) =>
    some { store := st
           reply := Reply.Error 400
             (NewError ErrValidationFailed (str "interpret failed: " ++ err))
           calls := sentInterp }
  | (Except.ok quoteInput, sentInterp) =>
    let sentA := (fanOutBranch E E.agentA quoteInput).2
    let sentB := (fanOutBranch E E.agentB quoteInput).2
    match collectLoop 2 evs [] with
    | none => none
    | some quotes =>
      let t : Task :=
        { TaskID := taskID, Status := StatusSucceeded
          Result := E.json_MarshalQuotes quotes, Error := none }
      some { store := st.put taskID t
             reply := Reply.Ack taskID t.Status
             calls := sentInterp ++ (sentA ++ sentB) }

/-- The `SHIP` arm of the `POST /tasks` handler. -/
def postTasksShip (E : Env) (st : Store) (taskID : Bytes) (ct : CreateTask) : Outcome :=
  match postTask E E.agentA (str "SHIP") ct.Input with
  | ((q, err), sent) =>
    let status := match err with
      | none => StatusSucceeded
      | some _ => StatusFailed
    let b := match err with
      | none => E.json_MarshalMap q
      | some e => E.json_MarshalError (NewError ErrInternal e)
    let t : Task := { TaskID := taskID, Status := status, Result := b, Error := none }
    { store := st.put taskID t
      reply := Reply.Ack taskID status
      calls := sent }

/-- The `POST /tasks` handler of the concierge. `decoded` is the outcome of
`json.NewDecoder(r.Body).Decode(&ct)`, `evs` what the `select`s of the collection loop
observe. `none`: the handler never replies. -/
def postTasks (E : Env) (evs : List SelectEvent) (st : Store)
    (decoded : Except Bytes CreateTask) : Option Outcome :=
  match decoded with
  | Except.error err =>
    some { store := st, reply := Reply.Error 400 (NewError ErrValidationFailed err), calls := [] }
  | Except.ok ct =>
    let taskID := str "t_" ++ RandID
    if ct.TaskType = str "QUOTE" then
      postTasksQuote E evs st taskID ct
    else if ct.TaskType = str "SHIP" then
      some (postTasksShip E st taskID ct)
    else
      some { store := st
             reply := Reply.Error 400 (NewError ErrValidationFailed (str "unsupported task_type"))
             calls := [] }

/-- The `GET /tasks/{id}` handler. -/
def getTask (st : Store) (id : Bytes) : Reply :=
  match st id with
  | none => Reply.Error 404 (NewError ErrNotFound (str "task not found"))
  | some t => Reply.Task 200 t

/-- The `POST /tasks/{id}/events` handler. `decoded` is the outcome of
`json.Unmarshal(body, &ev)` (`none` when it returns an error). The stored pointer is
written through, so the entry of `id` is the updated task. -/
def postTaskEvents (st : Store) (id : Bytes) (decoded : Option Event) : Store × Reply :=
  match decoded with
  | some ev =>
    if ev.Event = str "TASK_COMPLETED" then
      match st id with
      | some t =>
        (st.put id { t with Status := StatusSucceeded, Result := ev.Payload }, Reply.NoContent)
      | none => (st, Reply.NoContent)
    else
      (st, Reply.NoContent)
  | none => (st, Reply.NoContent)

end Concierge

/-! ## services/agent-a-go/main.go -/

namespace AgentA

def RandID : Bytes := str "123456"

/-- The `POST /tasks` handler of agent A. `decoded` is the outcome of
`json.NewDecoder(r.Body).Decode(&ct)`, `marshal` is `json.Marshal` on a
`map[string]any`. -/
def postTasks (marshal : JSONMap → Bytes) (st : Store) (decoded : Except Bytes CreateTask) :
    Store × Reply :=
  match decoded with
  | Except.error err =>
    (st, Reply.Task 400
      { TaskID := [], Status := [], Result := [],
        Error := some (NewError ErrValidationFailed err) })
  | Except.ok ct =>
    match ValidateCreateTask ct with
    | some err =>
      (st, Reply.Task 400
        { TaskID := [], Status := [], Result := [],
          Error := some (NewError ErrValidationFailed err) })
    | none =>
      let taskID := str "t_" ++ RandID
      let t : Task := { TaskID := taskID, Status := StatusSucceeded, Result := [], Error := none }
      let t : Task :=
        if ct.TaskType = str "QUOTE" then
          { t with Result := marshal (JSONMap.Map
              [(str "carrier", str "\"AgentA\""), (str "service", str "\"EXPRESS\""),
                (str "price", str "10000"), (str "eta_days", str "2")]) }
        else if ct.TaskType = str "SHIP" then
          { t with Result := marshal (JSONMap.Map
              [(str "status", str "\"READY\""), (str "tracking_id", str "\"A-" ++ RandID ++ str "\""),
                (str "label_url", str "\"https://cdn.local/A.png\"")]) }
        else
          { t with Status := StatusFailed
                   Error := some (NewError ErrValidationFailed (str "unsupported task_type")) }
      (st.put taskID t, Reply.Ack taskID t.Status)

/-- The `GET /tasks/{id}` handler of agent A. -/
def getTask (st : Store) (id : Bytes) : Reply :=
  match st id with
  | none => Reply.Error 404 (NewError ErrNotFound (str "task not found"))
  | some t => Reply.Task 200 t

end AgentA

/-! ## A concrete environment for evaluating the handlers -/

/-- Encoding of the members of a JSON object, in list order. -/
def sampleMarshalEntries : List (Bytes × Bytes) → Bytes
  | [] => str "\x7b\x7d"
  | (k, v) :: rest =>
    str "\x7b\"" ++ k ++ str "\":" ++ v ++
      (rest.map (fun kv => str ",\"" ++ kv.1 ++ str "\":" ++ kv.2)).flatten ++ str "\x7d"

/-- Encoding of a `map[string]any`: `null` for the nil map, else a JSON object. -/
def sampleMarshalMap : JSONMap → Bytes
  | JSONMap.Nil => str "null"
  | JSONMap.Map kvs => sampleMarshalEntries kvs

/-- Compaction of JSON text as `json.Marshal` applies it to a `json.RawMessage`: the
spaces, tabs and line breaks outside string literals are dropped. The two flags say
whether the position is inside a string literal, and right after a backslash. (Go also
escapes `<`, `>` and `&` inside strings; the inputs used here have none.) -/
def sampleCompact : Bool → Bool → Bytes → Bytes
  | _, _, [] => []
  | true, true, c :: rest => c :: sampleCompact true false rest
  | true, false, c :: rest => c :: sampleCompact (decide (c ≠ 34)) (decide (c = 92)) rest
  | false, _, c :: rest =>
    if c = 32 ∨ c = 9 ∨ c = 10 ∨ c = 13 then sampleCompact false false rest
    else c :: sampleCompact (decide (c = 34)) false rest

/-- A concrete `Env`. Every POST is answered with an acknowledgement of task "t_1";
the GET of a task returns a SUCCEEDED task carrying one structured quote input. -/
def sampleEnv : Env where
  agentA := str "http://localhost:8081"
  agentB := str "http://localhost:8082"
  interpreter := str "http://localhost:8083"
  json_UnmarshalMap := fun b =>
    if sampleCompact false false b = str "\x7b\"utterance\":\"2kg\"\x7d" then
      JSONMap.Map [(str "utterance", str "\"2kg\"")]
    else if sampleCompact false false b = str "\x7b\"from\":1,\"to\":2,\"parcel\":3\x7d" then
      JSONMap.Map [(str "from", str "1"), (str "to", str "2"), (str "parcel", str "3")]
    else if sampleCompact false false b = str "\x7b\x7d" then JSONMap.Map []
    else JSONMap.Nil
  json_DecodeMap := fun b =>
    if b = str "\x7b\"task_id\":\"t_1\",\"status\":\"SUCCEEDED\"\x7d" then
      JSONMap.Map [(str "task_id", str "\"t_1\""), (str "status", str "\"SUCCEEDED\"")]
    else JSONMap.Nil
  json_DecodeAck := fun b =>
    if b = str "\x7b\"task_id\":\"t_1\",\"status\":\"SUCCEEDED\"\x7d" then
      Except.ok (str "t_1", str "SUCCEEDED")
    else Except.error (str "unexpected end of JSON input")
  json_DecodeTask := fun b =>
    if b = str "task t_1" then
      Except.ok { TaskID := str "t_1", Status := StatusSucceeded
                  Result := str "\x7b\"from\":1,\"to\":2,\"parcel\":3\x7d", Error := none }
    else Except.error (str "unexpected end of JSON input")
  json_MarshalQuotes := fun quotes =>
    str "\x7b\"partial_failures\":[],\"quotes\":[" ++
      (str ",").intercalate (quotes.map sampleMarshalMap) ++ str "]\x7d"
  json_MarshalMap := sampleMarshalMap
  json_MarshalError := fun e =>
    sampleMarshalEntries [(str "code", str "\"" ++ e.Code ++ str "\""),
      (str "message", str "\"" ++ e.Message ++ str "\"")]
  json_MarshalCreateTask := fun ct =>
    sampleMarshalEntries [(str "task_type", str "\"" ++ ct.TaskType ++ str "\""),
      (str "input", if ct.Input = [] then str "null" else sampleCompact false false ct.Input)]
  json_MarshalString := fun v => str "\"" ++ v ++ str "\""
  http_Post := fun _ _ => Except.ok (str "\x7b\"task_id\":\"t_1\",\"status\":\"SUCCEEDED\"\x7d")
  http_Get := fun _ => Except.ok (str "task t_1")

/-- The environment `sampleEnv` with the other agents unreachable: `http.Post` returns
an error. -/
def sampleEnvDown : Env :=
  { sampleEnv with http_Post := fun _ _ => Except.error (str "connection refused") }

/-! ## Descriptions used by the claims, and sample inputs -/

/-- The stored list as claim C7 describes it: among the first two observed events,
those before the first timer or deadline event, keeping the data of the branch results
that succeeded, in arrival order. -/
def quotesBeforeDeadline (evs : List Concierge.SelectEvent) : List JSONMap :=
  ((evs.take 2).takeWhile
      (fun e => match e with
        | Concierge.SelectEvent.recv _ => true
        | _ => false)).filterMap
    (fun e => match e with
      | Concierge.SelectEvent.recv r => if r.ok then some r.data else none
      | _ => none)

/-- A `CreateTask` of the given type and input, without reply URL or idempotency key. -/
def sampleCreateTask (taskType input : Bytes) : CreateTask :=
  { TaskType := taskType, Input := input, ReplyURL := [], IdempotencyKey := [] }

/-- A branch result that succeeded with the given data. -/
def sampleQuote (carrier : Bytes) : Concierge.qres :=
  { ok := true, data := JSONMap.Map [(str "carrier", str "\"" ++ carrier ++ str "\"")]
    err := none }

/-- The data-model invariant of a task as claim C11 states it: a result (a non-empty
`Result`) only with status SUCCEEDED, an error (a non-nil `Error`) only with status
FAILED, and never both. -/
def TaskInvariant (t : Task) : Prop :=
  (t.Result ≠ [] → t.Status = StatusSucceeded) ∧
  (t.Error ≠ none → t.Status = StatusFailed) ∧
  ¬ (t.Result ≠ [] ∧ t.Error ≠ none)


/-! ## The models of the library functions on concrete inputs -/

theorem hex_EncodeToString_sample :
    hex_EncodeToString [0x00, 0xff, 0x1a, 0xb7] = str "00ff1ab7" := by decide

theorem strconv_ParseInt_samples :
    strconv_ParseInt (str "1793491200") = some 1793491200 ∧
    strconv_ParseInt (str "+5") = some 5 ∧
    strconv_ParseInt (str "-0012") = some (-12) ∧
    strconv_ParseInt (str "9223372036854775807") = some 9223372036854775807 ∧
    strconv_ParseInt (str "-9223372036854775808") = some (-9223372036854775808) ∧
    strconv_ParseInt (str "9223372036854775808") = none ∧
    strconv_ParseInt (str "-9223372036854775809") = none ∧
    strconv_ParseInt [] = none ∧
    strconv_ParseInt (str "-") = none ∧
    strconv_ParseInt (str "12a") = none ∧
    strconv_ParseInt (str "1_000") = none ∧
    strconv_ParseInt (str " 1") = none ∧
    strconv_ParseInt (str "2026-11-01T00:00:00Z") = none := by
  refine ⟨?_, ?_, ?_, ?_, ?_, ?_, ?_, ?_, ?_, ?_, ?_, ?_, ?_⟩ <;> decide

theorem subtle_ConstantTimeCompare_samples :
    subtle_ConstantTimeCompare (str "ab12") (str "ab12") = 1 ∧
    subtle_ConstantTimeCompare (str "ab12") (str "AB12") = 0 ∧
    subtle_ConstantTimeCompare (str "ab12") (str "ab1") = 0 := by
  refine ⟨?_, ?_, ?_⟩ <;> decide

theorem stripAlgoPrefix_samples :
    stripAlgoPrefix (str "hmac-sha256:00ff") = str "00ff" ∧
    stripAlgoPrefix (str "00ff") = str "00ff" ∧
    stripAlgoPrefix (str "hmac-sha256:") = str "hmac-sha256:" ∧
    stripAlgoPrefix (str "HMAC-SHA256:00ff") = str "HMAC-SHA256:00ff" := by
  refine ⟨?_, ?_, ?_, ?_⟩ <;> decide

theorem Time_Sub_samples :
    Time_Sub 1793491200000000000 1793491080000000000 = 120000000000 ∧
    Time_Sub 1793491200000000000 (-9000000000000000000) = maxDuration ∧
    Time_Sub (-9000000000000000000) 1793491200000000000 = minDuration := by
  refine ⟨?_, ?_, ?_⟩ <;> decide

/-! ## Claims on validation and the lifecycle -/

/-- C1. `CanTransition from to` is true exactly for the five pairs of the transition
table, for arbitrary strings `from`, `to`; so it is false whenever `from` is SUCCEEDED
or FAILED, and false for every self-transition. -/
theorem CanTransition_iff_table :
    (∀ from_ to_ : TaskStatus, CanTransition from_ to_ = true ↔
      (from_ = StatusPending ∧ to_ = StatusRunning) ∨
      (from_ = StatusPending ∧ to_ = StatusSucceeded) ∨
      (from_ = StatusPending ∧ to_ = StatusFailed) ∨
      (from_ = StatusRunning ∧ to_ = StatusSucceeded) ∨
      (from_ = StatusRunning ∧ to_ = StatusFailed)) ∧
    (∀ to_ : TaskStatus, CanTransition StatusSucceeded to_ = false) ∧
    (∀ to_ : TaskStatus, CanTransition StatusFailed to_ = false) ∧
    (∀ s : TaskStatus, CanTransition s s = false) := by
  have hPR : StatusPending ≠ StatusRunning := by decide
  have hPS : StatusPending ≠ StatusSucceeded := by decide
  have hPF : StatusPending ≠ StatusFailed := by decide
  have hRS : StatusRunning ≠ StatusSucceeded := by decide
  have hRF : StatusRunning ≠ StatusFailed := by decide
  refine ⟨?_, ?_, ?_, ?_⟩
  · intro from_ to_
    unfold CanTransition
    by_cases h1 : from_ = StatusPending
    · subst h1
      simp [hPR, or_assoc]
    · by_cases h2 : from_ = StatusRunning
      · subst h2
        simp [hPR.symm]
      · simp [h1, h2]
  · intro to_
    simp [CanTransition, hPS.symm, hRS.symm]
  · intro to_
    simp [CanTransition, hPF.symm, hRF.symm]
  · intro s
    unfold CanTransition
    by_cases h1 : s = StatusPending
    · subst h1
      simp [hPR, hPS, hPF]
    · by_cases h2 : s = StatusRunning
      · subst h2
        simp [hPR.symm, hRS, hRF]
      · simp [h1, h2]

/-- C3. `ValidateCreateTask` returns an error exactly when `TaskType` is the empty
string or `Input` has length zero; with both non-empty it returns nil, whatever
bytes `Input` holds. -/
theorem ValidateCreateTask_error_iff :
    (∀ ct : CreateTask,
      ValidateCreateTask ct ≠ none ↔ (ct.TaskType = [] ∨ ct.Input.length = 0)) ∧
    (∀ ct : CreateTask, ct.TaskType ≠ [] → ct.Input ≠ [] → ValidateCreateTask ct = none) := by
  constructor
  · intro ct
    unfold ValidateCreateTask
    by_cases h1 : ct.TaskType = []
    · simp [h1]
    · by_cases h2 : ct.Input.length = 0
      · simp [h1, h2]
      · simp [h1, h2]
  · intro ct h1 h2
    have h3 : ct.Input.length ≠ 0 := by
      intro h
      exact h2 (List.length_eq_zero.mp h)
    simp [ValidateCreateTask, h1, h3]

/-! ## Bytes and constant-time comparison -/

theorem Byte.xor_val (a b : Byte) : (a ^^^ b).val = a.val ^^^ b.val := by
  show (a.val ^^^ b.val) % 256 = _
  apply Nat.mod_eq_of_lt
  exact Nat.xor_lt_two_pow (n := 8) a.isLt b.isLt

theorem Byte.or_val (a b : Byte) : (a ||| b).val = a.val ||| b.val := by
  show (a.val ||| b.val) % 256 = _
  apply Nat.mod_eq_of_lt
  exact Nat.or_lt_two_pow (n := 8) a.isLt b.isLt

theorem Byte.xor_eq_zero (a b : Byte) : a ^^^ b = 0 ↔ a = b := by
  rw [Fin.ext_iff, Fin.ext_iff, Byte.xor_val]
  exact Nat.xor_eq_zero

theorem nat_or_eq_zero (a b : Nat) : a ||| b = 0 ↔ a = 0 ∧ b = 0 := by
  constructor
  · intro h
    have key : ∀ i, (a.testBit i || b.testBit i) = false := by
      intro i
      rw [← Nat.testBit_or, h]
      simp
    constructor
    · apply Nat.eq_of_testBit_eq
      intro i
      have hi := key i
      simp at hi
      simp [hi.1]
    · apply Nat.eq_of_testBit_eq
      intro i
      have hi := key i
      simp at hi
      simp [hi.2]
  · rintro ⟨rfl, rfl⟩
    simp

theorem Byte.or_eq_zero (a b : Byte) : a ||| b = 0 ↔ a = 0 ∧ b = 0 := by
  rw [Fin.ext_iff, Fin.ext_iff, Fin.ext_iff, Byte.or_val]
  exact nat_or_eq_zero _ _

theorem constantTimeLoop_eq_zero (x : Bytes) :
    ∀ (y : Bytes) (v : Byte), x.length = y.length →
      (constantTimeLoop v x y = 0 ↔ v = 0 ∧ x = y) := by
  induction x with
  | nil =>
    intro y v h
    cases y with
    | nil => simp [constantTimeLoop]
    | cons b y => simp at h
  | cons a x ih =>
    intro y v h
    cases y with
    | nil => simp at h
    | cons b y =>
      have hlen : x.length = y.length := by simpa using h
      rw [constantTimeLoop, ih y _ hlen, Byte.or_eq_zero, Byte.xor_eq_zero]
      constructor
      · rintro ⟨⟨hv, hab⟩, hxy⟩
        exact ⟨hv, by rw [hab, hxy]⟩
      · rintro ⟨hv, hxy⟩
        injection hxy with h1 h2
        exact ⟨⟨hv, h1⟩, h2⟩

theorem subtle_ConstantTimeByteEq_zero (v : Byte) :
    subtle_ConstantTimeByteEq v 0 = 1 ↔ v = 0 := by
  have hv : (v ^^^ 0).val = v.val := by rw [Byte.xor_val]; simp
  unfold subtle_ConstantTimeByteEq
  rw [hv]
  constructor
  · intro h
    by_contra hne
    have hpos : 0 < v.val := by
      rcases Nat.eq_zero_or_pos v.val with h0 | h0
      · exact absurd (Fin.ext h0) hne
      · exact h0
    have hlt : v.val < 256 := v.isLt
    have h1 : (v.val + 2 ^ 32 - 1) % 2 ^ 32 = v.val - 1 := by omega
    rw [h1, Nat.shiftRight_eq_div_pow] at h
    have h2 : (v.val - 1) / 2 ^ 31 = 0 := Nat.div_eq_of_lt (by omega)
    rw [h2] at h
    simp at h
  · intro h
    subst h
    decide

theorem subtle_ConstantTimeCompare_eq_one (x y : Bytes) :
    subtle_ConstantTimeCompare x y = 1 ↔ x = y := by
  unfold subtle_ConstantTimeCompare
  by_cases hlen : x.length = y.length
  · simp only [hlen, ne_eq, not_true_eq_false, if_false]
    rw [subtle_ConstantTimeByteEq_zero, constantTimeLoop_eq_zero x y 0 hlen]
    simp
  · simp only [ne_eq, hlen, not_false_eq_true, if_true]
    constructor
    · intro h
      simp at h
    · intro h
      exact absurd (by rw [h]) hlen

theorem hex_EncodeToString_length (b : Bytes) :
    (hex_EncodeToString b).length = 2 * b.length := by
  induction b with
  | nil => rfl
  | cons v rest ih => simp [hex_EncodeToString, ih]; omega

theorem MakeHMACSHA256_length (L : Stdlib) (secret payload : Bytes) :
    (MakeHMACSHA256 L secret payload).length = 64 := by
  unfold MakeHMACSHA256
  rw [hex_EncodeToString_length, (L.hmac_SHA256 secret payload).property]

theorem VerifyHMACSHA256_eq_true_iff (L : Stdlib) (secret payload hexSig : Bytes) :
    VerifyHMACSHA256 L secret payload hexSig = true ↔
      hexSig = MakeHMACSHA256 L secret payload := by
  unfold VerifyHMACSHA256
  by_cases hlen : (MakeHMACSHA256 L secret payload).length = hexSig.length
  · simp only [hlen, ne_eq, not_true_eq_false, if_false, beq_iff_eq]
    rw [subtle_ConstantTimeCompare_eq_one]
    exact eq_comm
  · simp only [ne_eq, hlen, not_false_eq_true, if_true]
    constructor
    · intro h
      simp at h
    · intro h
      exact absurd (by rw [h]) hlen

/-! ## Claims on signing -/

/-- C2. `VerifyHMACSHA256 secret payload sig` is true if and only if `sig` is, byte for
byte, `MakeHMACSHA256 secret payload`: a freshly made signature verifies, and every
other string (a different length, an upper-case digit, one changed byte) is rejected. -/
theorem VerifyHMACSHA256_iff_eq_Make (L : Stdlib) (secret payload : Bytes) :
    (∀ sig : Bytes, VerifyHMACSHA256 L secret payload sig = true ↔
      sig = MakeHMACSHA256 L secret payload) ∧
    VerifyHMACSHA256 L secret payload (MakeHMACSHA256 L secret payload) = true ∧
    (∀ sig : Bytes, VerifyHMACSHA256 L secret payload sig = false ↔
      sig ≠ MakeHMACSHA256 L secret payload) := by
  refine ⟨fun sig => VerifyHMACSHA256_eq_true_iff L secret payload sig, ?_, ?_⟩
  · exact (VerifyHMACSHA256_eq_true_iff L secret payload _).mpr rfl
  · intro sig
    rw [ne_eq, ← VerifyHMACSHA256_eq_true_iff L secret payload sig]
    simp

/-! ## Claims on the HMAC middleware -/

theorem str_algoPrefix_length : (str "hmac-sha256:").length = 12 := by decide

theorem str_algoPrefix_nonempty : str "hmac-sha256:" ≠ [] := by decide

/-- When `stripAlgoPrefix` yields a 64-byte string, removing the prefix (if the
signature has it) yields the same string. -/
theorem stripAlgoPrefix_eq_of_length (sig e : Bytes) (he : e.length = 64)
    (h : stripAlgoPrefix sig = e) :
    (if str "hmac-sha256:" <+: sig then sig.drop (str "hmac-sha256:").length else sig) = e := by
  unfold stripAlgoPrefix at h
  simp only [] at h
  by_cases hp : str "hmac-sha256:" <+: sig
  · rw [if_pos hp]
    by_cases hlen : sig.length > (str "hmac-sha256:").length
    · have htake : sig.take (str "hmac-sha256:").length = str "hmac-sha256:" :=
        List.prefix_iff_eq_take.mp hp |>.symm
      rw [if_pos ⟨hlen, htake⟩] at h
      exact h
    · rw [if_neg (fun hc => hlen hc.1)] at h
      have h64 : sig.length = 64 := by rw [h]; exact he
      rw [str_algoPrefix_length] at hlen
      omega
  · rw [if_neg hp]
    have hne : ¬ (sig.length > (str "hmac-sha256:").length ∧
        sig.take (str "hmac-sha256:").length = str "hmac-sha256:") := by
      rintro ⟨_, htake⟩
      apply hp
      rw [← htake]
      exact List.take_prefix _ _
    rw [if_neg hne] at h
    exact h

theorem stripAlgoPrefix_append (hex : Bytes) (h : hex ≠ []) :
    stripAlgoPrefix (str "hmac-sha256:" ++ hex) = hex := by
  unfold stripAlgoPrefix
  have hlen : (str "hmac-sha256:" ++ hex).length > (str "hmac-sha256:").length := by
    have : 0 < hex.length := List.length_pos.mpr h
    rw [List.length_append]
    omega
  simp only [hlen, List.take_left', List.drop_left', true_and, if_true]

/-- C4. For a request whose body can be read: if the agent-id header or the signature
header is empty, or the secret provider does not know the agent id, or the signature
header with an "hmac-sha256:" prefix removed is not the HMAC-SHA256 hex of the
request's canonical string under the agent's secret, then `HMACMiddleware` answers
with status 401 and does not call the next handler. -/
theorem HMACMiddleware_unauthorized (L : Stdlib) (sp : SecretProvider) (clockSkew : Duration)
    (now : Time) (r : Request) (bodyBytes : Bytes)
    (hbody : r.Body = some bodyBytes)
    (h : r.Header.Get HeaderAgentID = [] ∨ r.Header.Get HeaderSignature = [] ∨
      sp (r.Header.Get HeaderAgentID) = none ∨
      ∃ secret, sp (r.Header.Get HeaderAgentID) = some secret ∧
        (if str "hmac-sha256:" <+: r.Header.Get HeaderSignature
          then (r.Header.Get HeaderSignature).drop (str "hmac-sha256:").length
          else r.Header.Get HeaderSignature) ≠
        MakeHMACSHA256 L secret
          (CanonicalString L r.Method r.Path r.RawQuery bodyBytes
            (r.Header.Get HeaderRequestTime))) :
    (∃ msg, HMACMiddleware L sp clockSkew now r = Response.Error msg 401) ∧
    ∀ r', HMACMiddleware L sp clockSkew now r ≠ Response.ServeHTTP r' := by
  have key : ∃ msg, HMACMiddleware L sp clockSkew now r = Response.Error msg 401 := by
    unfold HMACMiddleware
    simp only [StatusUnauthorized]
    by_cases h1 : r.Header.Get HeaderAgentID = [] ∨ r.Header.Get HeaderSignature = []
    · rw [if_pos h1]
      exact ⟨_, rfl⟩
    · rw [if_neg h1]
      by_cases h2 : requestTimeSkewed L clockSkew now (r.Header.Get HeaderRequestTime) = true
      · rw [if_pos h2]
        exact ⟨_, rfl⟩
      · rw [if_neg h2]
        cases hsp : sp (r.Header.Get HeaderAgentID) with
        | none => exact ⟨_, rfl⟩
        | some secret =>
          simp only [hbody]
          rcases h with h | h | h | ⟨secret', hs, hne⟩
          · exact absurd (Or.inl h) h1
          · exact absurd (Or.inr h) h1
          · rw [hsp] at h
            exact absurd h (by simp)
          · rw [hsp] at hs
            injection hs with hs
            subst hs
            have hv : ¬ (VerifyHMACSHA256 L secret
                (r.Method ++ str "\n" ++ r.Path ++ str "\n" ++ r.RawQuery ++ str "\n" ++
                  hex_EncodeToString (L.sha256_Sum256 bodyBytes).val ++ str "\n" ++
                  r.Header.Get HeaderRequestTime)
                (stripAlgoPrefix (r.Header.Get HeaderSignature)) = true) := by
              intro hv
              rw [VerifyHMACSHA256_eq_true_iff] at hv
              apply hne
              exact stripAlgoPrefix_eq_of_length _ _ (MakeHMACSHA256_length L _ _) hv
            rw [if_pos hv]
            exact ⟨_, rfl⟩
  refine ⟨key, ?_⟩
  intro r' hr'
  obtain ⟨msg, hmsg⟩ := key
  rw [hmsg] at hr'
  exact Response.noConfusion hr'

theorem HMACMiddleware_unauthorized_witness :
    (∃ msg, HMACMiddleware sampleStdlib sampleSecrets 0 0
        (sampleRequest (str "hmac-sha256:00ff") []) = Response.Error msg 401) ∧
    ∀ r', HMACMiddleware sampleStdlib sampleSecrets 0 0
        (sampleRequest (str "hmac-sha256:00ff") []) ≠ Response.ServeHTTP r' :=
  HMACMiddleware_unauthorized sampleStdlib sampleSecrets 0 0
    (sampleRequest (str "hmac-sha256:00ff") []) (str "\x7b\x7d") rfl
    (Or.inr (Or.inr (Or.inr ⟨str "s3cret", by decide, by decide⟩)))

/-- A request from a known agent whose signature header is the prefixed hex HMAC of the
canonical string, and which the clock-skew test lets through, reaches the next handler. -/
theorem HMACMiddleware_serves_signed (L : Stdlib) (sp : SecretProvider)
    (clockSkew : Duration) (now : Time) (r : Request) (body secret : Bytes)
    (hbody : r.Body = some body)
    (hid : r.Header.Get HeaderAgentID ≠ [])
    (hsp : sp (r.Header.Get HeaderAgentID) = some secret)
    (hsig : r.Header.Get HeaderSignature = str "hmac-sha256:" ++
      MakeHMACSHA256 L secret
        (CanonicalString L r.Method r.Path r.RawQuery body (r.Header.Get HeaderRequestTime)))
    (hnoskew : requestTimeSkewed L clockSkew now (r.Header.Get HeaderRequestTime) = false) :
    HMACMiddleware L sp clockSkew now r = Response.ServeHTTP r ∧
    stripAlgoPrefix (r.Header.Get HeaderSignature) =
      MakeHMACSHA256 L secret
        (CanonicalString L r.Method r.Path r.RawQuery body (r.Header.Get HeaderRequestTime)) := by
  have hne : MakeHMACSHA256 L secret
      (CanonicalString L r.Method r.Path r.RawQuery body (r.Header.Get HeaderRequestTime)) ≠ [] := by
    intro h
    have h64 := MakeHMACSHA256_length L secret
      (CanonicalString L r.Method r.Path r.RawQuery body (r.Header.Get HeaderRequestTime))
    rw [h] at h64
    simp at h64
  have hstrip := stripAlgoPrefix_append _ hne
  rw [← hsig] at hstrip
  refine ⟨?_, hstrip⟩
  have hsigne : r.Header.Get HeaderSignature ≠ [] := by
    rw [hsig]
    simp [str_algoPrefix_nonempty]
  unfold HMACMiddleware
  simp only []
  rw [if_neg (by simp [hid, hsigne]), hnoskew]
  simp only [hsp, hbody, Bool.false_eq_true, if_false]
  have hv : VerifyHMACSHA256 L secret
      (r.Method ++ str "\n" ++ r.Path ++ str "\n" ++ r.RawQuery ++ str "\n" ++
        hex_EncodeToString (L.sha256_Sum256 body).val ++ str "\n" ++
        r.Header.Get HeaderRequestTime)
      (stripAlgoPrefix (r.Header.Get HeaderSignature)) = true := by
    rw [VerifyHMACSHA256_eq_true_iff, hstrip]
    rfl
  rw [if_neg (not_not.mpr hv)]
  congr 1
  cases r
  simp_all

/-- C5. Signing and the middleware agree: a request from a known, non-empty agent id
whose signature header is "hmac-sha256:" followed by `MakeHMACSHA256` of
`CanonicalString` of its method, path, raw query, body and request-time header, and
which passes or skips the clock-skew check, is handed to the next handler. The string
the middleware builds inline is `CanonicalString` of the same fields, and
`stripAlgoPrefix` returns exactly the hex part. -/
theorem HMACMiddleware_accepts_signed (L : Stdlib) (sp : SecretProvider)
    (clockSkew : Duration) (now : Time) (r : Request) (body secret : Bytes)
    (hbody : r.Body = some body)
    (hid : r.Header.Get HeaderAgentID ≠ [])
    (hsp : sp (r.Header.Get HeaderAgentID) = some secret)
    (hsig : r.Header.Get HeaderSignature = str "hmac-sha256:" ++
      MakeHMACSHA256 L secret
        (CanonicalString L r.Method r.Path r.RawQuery body (r.Header.Get HeaderRequestTime)))
    (hskew : r.Header.Get HeaderRequestTime = [] ∨ clockSkew ≤ 0 ∨
      parseHeaderTime L (r.Header.Get HeaderRequestTime) = none ∨
      ∃ t, parseHeaderTime L (r.Header.Get HeaderRequestTime) = some t ∧
        -clockSkew ≤ time_Since now t ∧ time_Since now t ≤ clockSkew) :
    HMACMiddleware L sp clockSkew now r = Response.ServeHTTP r ∧
    r.Method ++ str "\n" ++ r.Path ++ str "\n" ++ r.RawQuery ++ str "\n" ++
        hex_EncodeToString (L.sha256_Sum256 body).val ++ str "\n" ++
        r.Header.Get HeaderRequestTime =
      CanonicalString L r.Method r.Path r.RawQuery body (r.Header.Get HeaderRequestTime) ∧
    stripAlgoPrefix (r.Header.Get HeaderSignature) =
      MakeHMACSHA256 L secret
        (CanonicalString L r.Method r.Path r.RawQuery body (r.Header.Get HeaderRequestTime)) := by
  have hnoskew : requestTimeSkewed L clockSkew now (r.Header.Get HeaderRequestTime) = false := by
    unfold requestTimeSkewed
    rcases hskew with h | h | h | ⟨t, ht, hlo, hhi⟩
    · simp [h]
    · have hle : ¬ clockSkew > 0 := not_lt.mpr h
      simp [hle]
    · simp [h]
    · simp only [ht]
      by_cases hc : r.Header.Get HeaderRequestTime ≠ [] ∧ clockSkew > 0
      · rw [if_pos hc]
        simp only [decide_eq_false_iff_not]
        intro hd
        rcases hd with hd | hd
        · exact absurd hd (not_lt.mpr hhi)
        · exact absurd hd (not_lt.mpr hlo)
      · rw [if_neg hc]
  have hserve := HMACMiddleware_serves_signed L sp clockSkew now r body secret
    hbody hid hsp hsig hnoskew
  exact ⟨hserve.1, rfl, hserve.2⟩

theorem HMACMiddleware_accepts_signed_witness :
    HMACMiddleware sampleStdlib sampleSecrets 120000000000 1793491200000000000
        (sampleRequest (sampleSignature (str "1793491190")) (str "1793491190")) =
      Response.ServeHTTP (sampleRequest (sampleSignature (str "1793491190")) (str "1793491190")) :=
  (HMACMiddleware_accepts_signed sampleStdlib sampleSecrets 120000000000 1793491200000000000
    (sampleRequest (sampleSignature (str "1793491190")) (str "1793491190"))
    (str "\x7b\x7d") (str "s3cret") rfl (by decide) (by decide) (by decide)
    (Or.inr (Or.inr (Or.inr ⟨1793491190000000000, by decide, by decide, by decide⟩)))).1

/-! ## Clock skew -/

theorem time_Since_past (now t c : Int) (hc : c < maxDuration) (h : now - t > c) :
    time_Since now t > c := by
  unfold time_Since Time_Sub
  unfold maxDuration at *
  unfold minDuration
  simp only [Duration, Time] at *
  split_ifs <;> omega

theorem time_Since_future (now t c : Int) (hpos : 0 < c) (hc : c ≤ maxDuration)
    (h : t - now > c) : time_Since now t < -c := by
  unfold time_Since Time_Sub
  unfold maxDuration at *
  unfold minDuration
  simp only [Duration, Time] at *
  split_ifs <;> omega

theorem time_Since_within (now t c : Int) (hc : c ≤ maxDuration) (h : |now - t| ≤ c) :
    ¬ (time_Since now t > c ∨ time_Since now t < -c) := by
  have h2 := abs_le.mp h
  clear h
  unfold time_Since Time_Sub
  unfold maxDuration at *
  unfold minDuration
  simp only [Duration, Time] at *
  split_ifs <;> omega

theorem requestTimeSkewed_eq_true_iff (L : Stdlib) (clockSkew : Duration) (now : Time)
    (ts : Bytes) :
    requestTimeSkewed L clockSkew now ts = true ↔
      ts ≠ [] ∧ clockSkew > 0 ∧ ∃ t, parseHeaderTime L ts = some t ∧
        (time_Since now t > clockSkew ∨ time_Since now t < -clockSkew) := by
  unfold requestTimeSkewed
  by_cases hc : ts ≠ [] ∧ clockSkew > 0
  · rw [if_pos hc]
    cases hp : parseHeaderTime L ts with
    | none => simp
    | some t => simp [hc.1, hc.2]
  · rw [if_neg hc]
    constructor
    · intro h
      simp at h
    · rintro ⟨h1, h2, _⟩
      exact absurd ⟨h1, h2⟩ hc

theorem HMACMiddleware_of_not_skewed (L : Stdlib) (sp : SecretProvider)
    (clockSkew : Duration) (now now' : Time) (r : Request)
    (h : requestTimeSkewed L clockSkew now (r.Header.Get HeaderRequestTime) = false) :
    HMACMiddleware L sp clockSkew now r = HMACMiddleware L sp 0 now' r := by
  have h0 : requestTimeSkewed L 0 now' (r.Header.Get HeaderRequestTime) = false := by
    simp [requestTimeSkewed]
  unfold HMACMiddleware
  simp only [h, h0]

/-- C6 as the code has it. For a request with non-empty identity and signature headers
whose non-empty request-time header parses to a time `t`, and a tolerance with
`0 < tolerance ≤ 2^63 - 1` nanoseconds: the middleware answers 401 "request time
skewed" (whatever the signature) when `t - now > tolerance`, and when
`now - t > tolerance` provided `tolerance < 2^63 - 1`; when `|now - t| ≤ tolerance`, or
the header is empty, or the tolerance is zero, the outcome is that of the middleware
with the check disabled, which does not depend on the clock. -/
theorem HMACMiddleware_clockSkew (L : Stdlib) (sp : SecretProvider) (now : Time) (r : Request) :
    (∀ (clockSkew : Duration) (t : Time),
      r.Header.Get HeaderAgentID ≠ [] → r.Header.Get HeaderSignature ≠ [] →
      r.Header.Get HeaderRequestTime ≠ [] →
      0 < clockSkew → clockSkew ≤ maxDuration →
      parseHeaderTime L (r.Header.Get HeaderRequestTime) = some t →
      (t - now > clockSkew ∨ (now - t > clockSkew ∧ clockSkew < maxDuration)) →
      HMACMiddleware L sp clockSkew now r =
        Response.Error (str "request time skewed") 401) ∧
    (∀ (clockSkew : Duration) (t : Time),
      0 < clockSkew → clockSkew ≤ maxDuration →
      parseHeaderTime L (r.Header.Get HeaderRequestTime) = some t →
      |now - t| ≤ clockSkew →
      requestTimeSkewed L clockSkew now (r.Header.Get HeaderRequestTime) = false ∧
      HMACMiddleware L sp clockSkew now r = HMACMiddleware L sp 0 now r) ∧
    (∀ (clockSkew : Duration),
      r.Header.Get HeaderRequestTime = [] ∨ clockSkew = 0 →
      requestTimeSkewed L clockSkew now (r.Header.Get HeaderRequestTime) = false ∧
      HMACMiddleware L sp clockSkew now r = HMACMiddleware L sp 0 now r) ∧
    (∀ now' : Time, HMACMiddleware L sp 0 now r = HMACMiddleware L sp 0 now' r) := by
  refine ⟨?_, ?_, ?_, ?_⟩
  · intro clockSkew t hid hsig hts hpos hmax hparse hd
    have hskew : requestTimeSkewed L clockSkew now (r.Header.Get HeaderRequestTime) = true := by
      rw [requestTimeSkewed_eq_true_iff]
      refine ⟨hts, hpos, t, hparse, ?_⟩
      rcases hd with hd | ⟨hd, hlt⟩
      · exact Or.inr (time_Since_future now t clockSkew hpos hmax hd)
      · exact Or.inl (time_Since_past now t clockSkew hlt hd)
    unfold HMACMiddleware
    simp only []
    rw [if_neg (by simp [hid, hsig]), hskew]
    rfl
  · intro clockSkew t _ hmax hparse hd
    have hns : requestTimeSkewed L clockSkew now (r.Header.Get HeaderRequestTime) = false := by
      rw [← Bool.not_eq_true, requestTimeSkewed_eq_true_iff]
      rintro ⟨_, _, t', ht', hd'⟩
      rw [hparse] at ht'
      injection ht' with ht'
      subst ht'
      exact time_Since_within now t clockSkew hmax hd hd'
    exact ⟨hns, HMACMiddleware_of_not_skewed L sp clockSkew now now r hns⟩
  · intro clockSkew h
    have hns : requestTimeSkewed L clockSkew now (r.Header.Get HeaderRequestTime) = false := by
      rw [← Bool.not_eq_true, requestTimeSkewed_eq_true_iff]
      rintro ⟨h1, h2, _⟩
      rcases h with h | h
      · exact h1 h
      · rw [h] at h2
        exact absurd h2 (lt_irrefl _)
    exact ⟨hns, HMACMiddleware_of_not_skewed L sp clockSkew now now r hns⟩
  · intro now'
    exact HMACMiddleware_of_not_skewed L sp 0 now now' r (by simp [requestTimeSkewed])

theorem HMACMiddleware_clockSkew_witness :
    HMACMiddleware sampleStdlib sampleSecrets 120000000000 1793491200000000000
        (sampleRequest (str "hmac-sha256:00ff") (str "1793491000")) =
      Response.Error (str "request time skewed") 401 ∧
    HMACMiddleware sampleStdlib sampleSecrets 120000000000 1793491200000000000
        (sampleRequest (sampleSignature (str "1793491080")) (str "1793491080")) =
      HMACMiddleware sampleStdlib sampleSecrets 0 1793491200000000000
        (sampleRequest (sampleSignature (str "1793491080")) (str "1793491080")) :=
  ⟨(HMACMiddleware_clockSkew sampleStdlib sampleSecrets 1793491200000000000
      (sampleRequest (str "hmac-sha256:00ff") (str "1793491000"))).1
      120000000000 1793491000000000000 (by decide) (by decide) (by decide) (by decide)
      (by decide) (by decide) (Or.inr ⟨by decide, by decide⟩),
    ((HMACMiddleware_clockSkew sampleStdlib sampleSecrets 1793491200000000000
      (sampleRequest (sampleSignature (str "1793491080")) (str "1793491080"))).2.1
      120000000000 1793491080000000000 (by decide) (by decide) (by decide) (by decide)).2⟩

/-- With the largest tolerance, no request stamped in the past is stopped by the
clock-skew test, however old: `time.Since` is at most the largest `Duration`. A
correctly signed one reaches the next handler. -/
theorem HMACMiddleware_maxDuration_past (L : Stdlib) (sp : SecretProvider) (now t : Time)
    (r : Request) (body secret : Bytes)
    (hbody : r.Body = some body)
    (hid : r.Header.Get HeaderAgentID ≠ [])
    (hsp : sp (r.Header.Get HeaderAgentID) = some secret)
    (hsig : r.Header.Get HeaderSignature = str "hmac-sha256:" ++
      MakeHMACSHA256 L secret
        (CanonicalString L r.Method r.Path r.RawQuery body (r.Header.Get HeaderRequestTime)))
    (hparse : parseHeaderTime L (r.Header.Get HeaderRequestTime) = some t)
    (hpast : t ≤ now) :
    HMACMiddleware L sp maxDuration now r = Response.ServeHTTP r := by
  have hns : requestTimeSkewed L maxDuration now (r.Header.Get HeaderRequestTime) = false := by
    rw [← Bool.not_eq_true, requestTimeSkewed_eq_true_iff]
    rintro ⟨_, _, t', ht', hd'⟩
    rw [hparse] at ht'
    injection ht' with ht'
    subst ht'
    revert hd'
    unfold time_Since Time_Sub
    unfold maxDuration minDuration
    simp only [Duration, Time] at *
    split_ifs <;> omega
  exact (HMACMiddleware_serves_signed L sp maxDuration now r body secret
    hbody hid hsp hsig hns).1

/-- C6 as stated fails at the largest tolerance. With tolerance `2^63 - 1` ns, a clock
reading of 2026-11-01 and the request time `-9000000000` (epoch seconds, year 1684),
the header parses, `|now - t|` exceeds the tolerance, and the correctly signed request
is handed to the next handler: `time.Since` saturates at the largest `Duration`, which
is not greater than the tolerance. -/
theorem HMACMiddleware_clockSkew_counterexample :
    parseHeaderTime sampleStdlib (str "-9000000000") = some (-9000000000000000000) ∧
    (0 : Int) < maxDuration ∧
    |(1793491200000000000 : Int) - (-9000000000000000000)| > maxDuration ∧
    time_Since 1793491200000000000 (-9000000000000000000) = maxDuration ∧
    HMACMiddleware sampleStdlib sampleSecrets maxDuration 1793491200000000000
        (sampleRequest (sampleSignature (str "-9000000000")) (str "-9000000000")) =
      Response.ServeHTTP
        (sampleRequest (sampleSignature (str "-9000000000")) (str "-9000000000")) := by
  refine ⟨by decide, by decide, ?_, by decide, by decide⟩
  rw [abs_of_pos (by norm_num)]
  norm_num [maxDuration]

theorem ValidateCreateTask_error_iff_witness :
    ValidateCreateTask (sampleCreateTask (str "QUOTE") (str "\x7b\x7d")) = none :=
  ValidateCreateTask_error_iff.2 (sampleCreateTask (str "QUOTE") (str "\x7b\x7d"))
    (by decide) (by decide)

/-! ## The requests of the concierge -/

/-- A fan-out goroutine makes one request: the POST, to the agent's `/tasks`, of the
encoded QUOTE `CreateTask` whose input is `quoteInput`. -/
theorem fanOutBranch_calls (E : Env) (agent quoteInput : Bytes) :
    (Concierge.fanOutBranch E agent quoteInput).2 =
      [HTTPCall.Post (agent ++ str "/tasks")
        (E.json_MarshalCreateTask
          { TaskType := str "QUOTE", Input := quoteInput, ReplyURL := [],
            IdempotencyKey := [] })] := by
  unfold Concierge.fanOutBranch Concierge.postTask httpPost
  simp only []
  generalize E.http_Post _ _ = r
  cases r <;> rfl

/-- The QUOTE arm once the quote input is fixed and the collection loop has ended. -/
theorem postTasksQuote_of_input (E : Env) (evs : List Concierge.SelectEvent) (st : Store)
    (taskID : Bytes) (ct : CreateTask) (quoteInput : Bytes) (sentInterp : List HTTPCall)
    (quotes : List JSONMap)
    (hin : (if Concierge.needsInterpret (E.json_UnmarshalMap ct.Input)
        then Concierge.postInterpret E E.interpreter (E.json_UnmarshalMap ct.Input)
        else (Except.ok ct.Input, [])) = (Except.ok quoteInput, sentInterp))
    (hloop : Concierge.collectLoop 2 evs [] = some quotes) :
    Concierge.postTasksQuote E evs st taskID ct = some
      { store := st.put taskID
          { TaskID := taskID, Status := StatusSucceeded
            Result := E.json_MarshalQuotes quotes, Error := none }
        reply := Reply.Ack taskID StatusSucceeded
        calls := sentInterp ++
          ((Concierge.fanOutBranch E E.agentA quoteInput).2 ++
            (Concierge.fanOutBranch E E.agentB quoteInput).2) } := by
  unfold Concierge.postTasksQuote
  simp only [hin, hloop]

/-- The QUOTE arm when the interpretation fails: status 400, nothing stored, and no
request beyond those of the interpretation. -/
theorem postTasksQuote_of_error (E : Env) (evs : List Concierge.SelectEvent) (st : Store)
    (taskID : Bytes) (ct : CreateTask) (err : Bytes) (sentInterp : List HTTPCall)
    (hin : (if Concierge.needsInterpret (E.json_UnmarshalMap ct.Input)
        then Concierge.postInterpret E E.interpreter (E.json_UnmarshalMap ct.Input)
        else (Except.ok ct.Input, [])) = (Except.error err, sentInterp)) :
    Concierge.postTasksQuote E evs st taskID ct = some
      { store := st
        reply := Reply.Error 400
          (NewError ErrValidationFailed (str "interpret failed: " ++ err))
        calls := sentInterp } := by
  unfold Concierge.postTasksQuote
  simp only [hin]

/-! ## Claims on the concierge -/

theorem collectLoop_eq_quotesBeforeDeadline (evs : List Concierge.SelectEvent)
    (hobs : 2 ≤ evs.length ∨ Concierge.SelectEvent.timeout ∈ evs ∨
      Concierge.SelectEvent.ctxDone ∈ evs) :
    Concierge.collectLoop 2 evs [] = some (quotesBeforeDeadline evs) := by
  match evs with
  | [] => simp at hobs
  | [e] =>
    cases e with
    | recv r => simp at hobs
    | timeout => simp [Concierge.collectLoop, quotesBeforeDeadline]
    | ctxDone => simp [Concierge.collectLoop, quotesBeforeDeadline]
  | e1 :: e2 :: rest =>
    cases e1 with
    | recv r1 =>
      cases e2 with
      | recv r2 =>
        cases h1 : r1.ok <;> cases h2 : r2.ok <;>
          simp [Concierge.collectLoop, quotesBeforeDeadline, h1, h2]
      | timeout => cases h1 : r1.ok <;> simp [Concierge.collectLoop, quotesBeforeDeadline, h1]
      | ctxDone => cases h1 : r1.ok <;> simp [Concierge.collectLoop, quotesBeforeDeadline, h1]
    | timeout => simp [Concierge.collectLoop, quotesBeforeDeadline]
    | ctxDone => simp [Concierge.collectLoop, quotesBeforeDeadline]

theorem quotesBeforeDeadline_length_le (evs : List Concierge.SelectEvent) :
    (quotesBeforeDeadline evs).length ≤ 2 := by
  unfold quotesBeforeDeadline
  refine le_trans (List.length_filterMap_le _ _) ?_
  refine le_trans (List.takeWhile_sublist _).length_le ?_
  simp

/-- C7. In the QUOTE arm, when the fan-out is reached (interpretation not needed, or
it succeeded) and the collector observes two branch results or the timer or the
context deadline: the handler replies, the stored task has status SUCCEEDED, and its
result encodes exactly the data of the successful branch results received before the
first timer/deadline event, in arrival order, at most two. A failed or late branch
adds nothing and does not fail the request. Two successes give a list of length 2;
one success followed by the timer gives length 1. -/
theorem postTasks_quote_collects (E : Env) (st : Store) (ct : CreateTask)
    (evs : List Concierge.SelectEvent)
    (hq : ct.TaskType = str "QUOTE")
    (hin : Concierge.needsInterpret (E.json_UnmarshalMap ct.Input) = false ∨
      ∃ out, (Concierge.postInterpret E E.interpreter (E.json_UnmarshalMap ct.Input)).1 =
        Except.ok out)
    (hobs : 2 ≤ evs.length ∨ Concierge.SelectEvent.timeout ∈ evs ∨
      Concierge.SelectEvent.ctxDone ∈ evs) :
    (∃ o, Concierge.postTasks E evs st (Except.ok ct) = some o ∧
      o.store (str "t_" ++ Concierge.RandID) = some
        { TaskID := str "t_" ++ Concierge.RandID, Status := StatusSucceeded
          Result := E.json_MarshalQuotes (quotesBeforeDeadline evs), Error := none } ∧
      o.reply = Reply.Ack (str "t_" ++ Concierge.RandID) StatusSucceeded) ∧
    Concierge.collectLoop 2 evs [] = some (quotesBeforeDeadline evs) ∧
    (quotesBeforeDeadline evs).length ≤ 2 ∧
    (∀ (d1 d2 : JSONMap) (e1 e2 : Option Bytes) (rest : List Concierge.SelectEvent),
      quotesBeforeDeadline
        (Concierge.SelectEvent.recv { ok := true, data := d1, err := e1 } ::
          Concierge.SelectEvent.recv { ok := true, data := d2, err := e2 } :: rest) = [d1, d2]) ∧
    (∀ (d1 : JSONMap) (e1 : Option Bytes) (rest : List Concierge.SelectEvent),
      quotesBeforeDeadline
        (Concierge.SelectEvent.recv { ok := true, data := d1, err := e1 } ::
          Concierge.SelectEvent.timeout :: rest) = [d1]) ∧
    (∀ (d : JSONMap) (e : Option Bytes) (rest : List Concierge.SelectEvent),
      quotesBeforeDeadline
        (Concierge.SelectEvent.recv { ok := false, data := d, err := e } :: rest) =
      quotesBeforeDeadline (rest.take 1)) ∧
    (∀ (r : Concierge.qres) (rest : List Concierge.SelectEvent),
      quotesBeforeDeadline (Concierge.SelectEvent.timeout :: rest) = [] ∧
      quotesBeforeDeadline (Concierge.SelectEvent.ctxDone :: rest) = [] ∧
      quotesBeforeDeadline (Concierge.SelectEvent.recv r :: Concierge.SelectEvent.timeout :: rest) =
        quotesBeforeDeadline [Concierge.SelectEvent.recv r] ∧
      quotesBeforeDeadline (Concierge.SelectEvent.recv r :: Concierge.SelectEvent.ctxDone :: rest) =
        quotesBeforeDeadline [Concierge.SelectEvent.recv r]) := by
  have hloop := collectLoop_eq_quotesBeforeDeadline evs hobs
  refine ⟨?_, hloop, quotesBeforeDeadline_length_le evs, ?_, ?_, ?_, ?_⟩
  · unfold Concierge.postTasks
    simp only [hq, if_true]
    have hin2 : ∃ quoteInput sent,
        (if Concierge.needsInterpret (E.json_UnmarshalMap ct.Input)
          then Concierge.postInterpret E E.interpreter (E.json_UnmarshalMap ct.Input)
          else (Except.ok ct.Input, [])) = (Except.ok quoteInput, sent) := by
      cases hn : Concierge.needsInterpret (E.json_UnmarshalMap ct.Input)
      · exact ⟨ct.Input, [], by simp⟩
      · rcases hin with hno | ⟨out, hout⟩
        · rw [hn] at hno
          exact absurd hno (by simp)
        · refine ⟨out, (Concierge.postInterpret E E.interpreter
            (E.json_UnmarshalMap ct.Input)).2, ?_⟩
          simp only [if_true]
          exact Prod.ext hout rfl
    obtain ⟨quoteInput, sent, hqi⟩ := hin2
    rw [postTasksQuote_of_input E evs st _ ct quoteInput sent _ hqi hloop]
    refine ⟨_, rfl, ?_, rfl⟩
    simp [Store.put]
  · intro d1 d2 e1 e2 rest
    simp [quotesBeforeDeadline]
  · intro d1 e1 rest
    simp [quotesBeforeDeadline]
  · intro d e rest
    cases rest with
    | nil => simp [quotesBeforeDeadline]
    | cons e2 rest =>
      cases e2 <;> simp [quotesBeforeDeadline]
  · intro r rest
    simp [quotesBeforeDeadline]

theorem postTasks_quote_collects_witness :
    Concierge.collectLoop 2
        [Concierge.SelectEvent.recv (sampleQuote (str "A")), Concierge.SelectEvent.timeout] [] =
      some [JSONMap.Map [(str "carrier", str "\"A\"")]] :=
  (postTasks_quote_collects sampleEnv Store.empty
    (sampleCreateTask (str "QUOTE") (str "\x7b\"from\":1,\"to\":2,\"parcel\":3\x7d"))
    [Concierge.SelectEvent.recv (sampleQuote (str "A")), Concierge.SelectEvent.timeout]
    (by decide) (Or.inl (by decide)) (Or.inl (by decide))).2.1

theorem JSONMap.has_iff_mem_keys (m : JSONMap) (key : Bytes) :
    m.has key = true ↔ key ∈ m.entries.map Prod.fst := by
  unfold JSONMap.has
  cases m with
  | Nil => simp [JSONMap.entries, List.lookup]
  | Map kvs =>
    simp only [JSONMap.entries]
    induction kvs with
    | nil => simp [List.lookup]
    | cons kv rest ih =>
      obtain ⟨k, v⟩ := kv
      by_cases hk : key = k
      · subst hk
        simp [List.lookup]
      · have hne : (key == k) = false := by simpa using hk
        simp only [List.lookup, hne, List.map_cons, List.mem_cons, hk, false_or]
        exact ih

theorem needsInterpret_iff (raw : JSONMap) :
    Concierge.needsInterpret raw = true ↔
      (str "utterance" ∈ raw.entries.map Prod.fst ∨ str "from" ∉ raw.entries.map Prod.fst ∨
        str "to" ∉ raw.entries.map Prod.fst ∨ str "parcel" ∉ raw.entries.map Prod.fst) := by
  simp only [← JSONMap.has_iff_mem_keys]
  unfold Concierge.needsInterpret
  cases raw.has (str "utterance") <;> cases raw.has (str "from") <;>
    cases raw.has (str "to") <;> cases raw.has (str "parcel") <;> simp

/-- The value sent as `utterance`: the one of the input when it has one, else the
encoded input as a JSON string. -/
theorem postInterpret_utterance (E : Env) (raw : JSONMap) :
    ((if ¬ raw.has (str "utterance") then
        JSONMap.Map [(str "utterance", E.json_MarshalString (E.json_MarshalMap raw))]
      else raw).entries.lookup (str "utterance")).getD (str "null") =
    (match raw.entries.lookup (str "utterance") with
      | some u => u
      | none => E.json_MarshalString (E.json_MarshalMap raw)) := by
  unfold JSONMap.has
  cases h : raw.entries.lookup (str "utterance") with
  | none => simp [JSONMap.entries, List.lookup]
  | some u => simp [h]

/-- The first request of `postInterpret` is the POST, to the interpreter's `/tasks`, of
the encoded INTERPRET `CreateTask` whose input is the encoded `utterance` object. -/
theorem postInterpret_calls_head (E : Env) (baseURL : Bytes) (raw : JSONMap) :
    ∃ rest, (Concierge.postInterpret E baseURL raw).2 =
      HTTPCall.Post (baseURL ++ str "/tasks")
        (E.json_MarshalCreateTask
          { TaskType := str "INTERPRET"
            Input := E.json_MarshalMap (JSONMap.Map [(str "utterance",
              match raw.entries.lookup (str "utterance") with
              | some u => u
              | none => E.json_MarshalString (E.json_MarshalMap raw))])
            ReplyURL := [], IdempotencyKey := [] }) :: rest := by
  unfold Concierge.postInterpret httpPost httpGet
  simp only [postInterpret_utterance]
  generalize E.http_Post _ _ = r
  cases r with
  | error err => exact ⟨_, rfl⟩
  | ok respBody =>
    simp only []
    cases E.json_DecodeAck respBody with
    | error err => exact ⟨_, rfl⟩
    | ok ack =>
      simp only []
      generalize E.http_Get _ = g
      cases g with
      | error err => exact ⟨_, rfl⟩
      | ok grBody =>
        simp only []
        cases E.json_DecodeTask grBody with
        | error err => exact ⟨_, rfl⟩
        | ok t =>
          simp only []
          split <;> exact ⟨_, rfl⟩

/-- A successful exchange with the interpreter: the POST is acknowledged, the GET of the
acknowledged task returns a SUCCEEDED task; `postInterpret` returns that task's result
after exactly these two requests. -/
theorem postInterpret_ok (E : Env) (baseURL : Bytes) (raw : JSONMap)
    (respBody grBody : Bytes) (ack : Bytes × Bytes) (t : Task)
    (hpost : E.http_Post (baseURL ++ str "/tasks")
      (E.json_MarshalCreateTask
        { TaskType := str "INTERPRET"
          Input := E.json_MarshalMap (JSONMap.Map [(str "utterance",
            match raw.entries.lookup (str "utterance") with
            | some u => u
            | none => E.json_MarshalString (E.json_MarshalMap raw))])
          ReplyURL := [], IdempotencyKey := [] }) = Except.ok respBody)
    (hack : E.json_DecodeAck respBody = Except.ok ack)
    (hget : E.http_Get (baseURL ++ str "/tasks/" ++ ack.1) = Except.ok grBody)
    (htask : E.json_DecodeTask grBody = Except.ok t)
    (hst : t.Status = StatusSucceeded) :
    Concierge.postInterpret E baseURL raw =
      (Except.ok t.Result,
        [HTTPCall.Post (baseURL ++ str "/tasks")
          (E.json_MarshalCreateTask
            { TaskType := str "INTERPRET"
              Input := E.json_MarshalMap (JSONMap.Map [(str "utterance",
                match raw.entries.lookup (str "utterance") with
                | some u => u
                | none => E.json_MarshalString (E.json_MarshalMap raw))])
              ReplyURL := [], IdempotencyKey := [] }),
          HTTPCall.Get (baseURL ++ str "/tasks/" ++ ack.1)]) := by
  unfold Concierge.postInterpret httpPost httpGet
  simp only [postInterpret_utterance, hpost, hack, hget, htask, hst]
  simp

/-- The nil map and the empty map are told apart in the interpreter request: for an
input that is not a JSON object the utterance sent is the string "null", for the empty
object it is the string "{}". -/
theorem postInterpret_nil_and_empty :
    (Concierge.postInterpret sampleEnv sampleEnv.interpreter JSONMap.Nil).2 =
      [HTTPCall.Post (str "http://localhost:8083/tasks")
        (str "\x7b\"task_type\":\"INTERPRET\",\"input\":\x7b\"utterance\":\"null\"\x7d\x7d"),
      HTTPCall.Get (str "http://localhost:8083/tasks/t_1")] ∧
    (Concierge.postInterpret sampleEnv sampleEnv.interpreter (JSONMap.Map [])).2 =
      [HTTPCall.Post (str "http://localhost:8083/tasks")
        (str "\x7b\"task_type\":\"INTERPRET\",\"input\":\x7b\"utterance\":\"\x7b\x7d\"\x7d\x7d"),
      HTTPCall.Get (str "http://localhost:8083/tasks/t_1")] := by
  constructor <;> decide

theorem tasks_url_ne (a b : Bytes) (h : a ≠ b) : a ++ str "/tasks" ≠ b ++ str "/tasks" :=
  fun he => h (List.append_cancel_right he)

/-- C8 as the code has it. For a QUOTE request, with `K` the top-level keys of the
input decoded as a JSON object (none when it is not an object), the condition being
that "utterance" is in `K` or one of "from", "to", "parcel" is not in `K`: when the
condition holds, the first request of the handler is the POST of an INTERPRET task to
the interpretation agent; when it does not hold, the handler's only requests are the
two POSTs to the pricing agents, each carrying the encoded QUOTE `CreateTask` whose
input is the original input; when it holds and the interpreter acknowledges and
returns a SUCCEEDED task, the two POSTs carry the encoded QUOTE `CreateTask` whose
input is that task's result. With an interpreter URL distinct from the pricing agents,
a request is made to the interpreter's `/tasks` if and only if the condition holds.
What is sent is the encoding of the `CreateTask`, not the input bytes themselves. -/
theorem postTasks_quote_interpretation (E : Env) (st : Store) (ct : CreateTask)
    (evs : List Concierge.SelectEvent) (raw : JSONMap) (interpretTask : Bytes)
    (hq : ct.TaskType = str "QUOTE")
    (hraw : E.json_UnmarshalMap ct.Input = raw)
    (hreq : interpretTask = E.json_MarshalCreateTask
      { TaskType := str "INTERPRET"
        Input := E.json_MarshalMap (JSONMap.Map [(str "utterance",
          match raw.entries.lookup (str "utterance") with
          | some u => u
          | none => E.json_MarshalString (E.json_MarshalMap raw))])
        ReplyURL := [], IdempotencyKey := [] })
    (hobs : 2 ≤ evs.length ∨ Concierge.SelectEvent.timeout ∈ evs ∨
      Concierge.SelectEvent.ctxDone ∈ evs) :
    ∃ o, Concierge.postTasks E evs st (Except.ok ct) = some o ∧
      ((str "utterance" ∈ raw.entries.map Prod.fst ∨ str "from" ∉ raw.entries.map Prod.fst ∨
          str "to" ∉ raw.entries.map Prod.fst ∨ str "parcel" ∉ raw.entries.map Prod.fst) →
        ∃ rest, o.calls =
          HTTPCall.Post (E.interpreter ++ str "/tasks") interpretTask :: rest) ∧
      (¬ (str "utterance" ∈ raw.entries.map Prod.fst ∨ str "from" ∉ raw.entries.map Prod.fst ∨
          str "to" ∉ raw.entries.map Prod.fst ∨ str "parcel" ∉ raw.entries.map Prod.fst) →
        o.calls =
          [HTTPCall.Post (E.agentA ++ str "/tasks")
            (E.json_MarshalCreateTask
              { TaskType := str "QUOTE", Input := ct.Input, ReplyURL := [],
                IdempotencyKey := [] }),
          HTTPCall.Post (E.agentB ++ str "/tasks")
            (E.json_MarshalCreateTask
              { TaskType := str "QUOTE", Input := ct.Input, ReplyURL := [],
                IdempotencyKey := [] })]) ∧
      (∀ (respBody grBody : Bytes) (ack : Bytes × Bytes) (t : Task),
        (str "utterance" ∈ raw.entries.map Prod.fst ∨ str "from" ∉ raw.entries.map Prod.fst ∨
          str "to" ∉ raw.entries.map Prod.fst ∨ str "parcel" ∉ raw.entries.map Prod.fst) →
        E.http_Post (E.interpreter ++ str "/tasks") interpretTask = Except.ok respBody →
        E.json_DecodeAck respBody = Except.ok ack →
        E.http_Get (E.interpreter ++ str "/tasks/" ++ ack.1) = Except.ok grBody →
        E.json_DecodeTask grBody = Except.ok t →
        t.Status = StatusSucceeded →
        o.calls =
          [HTTPCall.Post (E.interpreter ++ str "/tasks") interpretTask,
          HTTPCall.Get (E.interpreter ++ str "/tasks/" ++ ack.1),
          HTTPCall.Post (E.agentA ++ str "/tasks")
            (E.json_MarshalCreateTask
              { TaskType := str "QUOTE", Input := t.Result, ReplyURL := [],
                IdempotencyKey := [] }),
          HTTPCall.Post (E.agentB ++ str "/tasks")
            (E.json_MarshalCreateTask
              { TaskType := str "QUOTE", Input := t.Result, ReplyURL := [],
                IdempotencyKey := [] })]) ∧
      (E.interpreter ≠ E.agentA → E.interpreter ≠ E.agentB →
        ((∃ body, HTTPCall.Post (E.interpreter ++ str "/tasks") body ∈ o.calls) ↔
          (str "utterance" ∈ raw.entries.map Prod.fst ∨
            str "from" ∉ raw.entries.map Prod.fst ∨
            str "to" ∉ raw.entries.map Prod.fst ∨ str "parcel" ∉ raw.entries.map Prod.fst))) := by
  subst hraw
  subst hreq
  have hloop := collectLoop_eq_quotesBeforeDeadline evs hobs
  rw [← needsInterpret_iff]
  unfold Concierge.postTasks
  simp only [hq, if_true]
  cases hn : Concierge.needsInterpret (E.json_UnmarshalMap ct.Input)
  · have hqi : (if Concierge.needsInterpret (E.json_UnmarshalMap ct.Input)
        then Concierge.postInterpret E E.interpreter (E.json_UnmarshalMap ct.Input)
        else (Except.ok ct.Input, [])) = (Except.ok ct.Input, []) := by
      simp [hn]
    rw [postTasksQuote_of_input E evs st _ ct ct.Input [] _ hqi hloop]
    simp only [fanOutBranch_calls, List.nil_append, List.singleton_append]
    refine ⟨_, rfl, ?_, ?_, ?_, ?_⟩
    · intro h
      exact absurd h (by simp)
    · intro _
      rfl
    · intro _ _ _ _ h
      exact absurd h (by simp)
    · intro hA hB
      constructor
      · rintro ⟨body, hmem⟩
        simp only [List.mem_cons, HTTPCall.Post.injEq, List.mem_singleton, List.not_mem_nil,
          or_false] at hmem
        rcases hmem with h | h
        · exact absurd h.1 (tasks_url_ne _ _ hA)
        · exact absurd h.1 (tasks_url_ne _ _ hB)
      · intro h
        exact absurd h (by simp)
  · obtain ⟨rest, hhead⟩ := postInterpret_calls_head E E.interpreter
      (E.json_UnmarshalMap ct.Input)
    cases hp : Concierge.postInterpret E E.interpreter (E.json_UnmarshalMap ct.Input) with
    | mk res sent =>
      rw [hp] at hhead
      simp only [] at hhead
      cases res with
      | error err =>
        have hqi : (if Concierge.needsInterpret (E.json_UnmarshalMap ct.Input)
            then Concierge.postInterpret E E.interpreter (E.json_UnmarshalMap ct.Input)
            else (Except.ok ct.Input, [])) = (Except.error err, sent) := by
          simp [hn, hp]
        rw [postTasksQuote_of_error E evs st _ ct err sent hqi]
        refine ⟨_, rfl, ?_, ?_, ?_, ?_⟩
        · intro _
          exact ⟨rest, hhead⟩
        · intro h
          exact absurd (by simp) h
        · intro respBody grBody ack t _ hpost hack hget htask hst
          have hok := postInterpret_ok E E.interpreter (E.json_UnmarshalMap ct.Input)
            respBody grBody ack t hpost hack hget htask hst
          rw [hp] at hok
          simp at hok
        · intro _ _
          constructor
          · intro _
            simp
          · intro _
            exact ⟨_, by simp only [hhead]; exact List.mem_cons_self _ _⟩
      | ok out =>
        have hqi : (if Concierge.needsInterpret (E.json_UnmarshalMap ct.Input)
            then Concierge.postInterpret E E.interpreter (E.json_UnmarshalMap ct.Input)
            else (Except.ok ct.Input, [])) = (Except.ok out, sent) := by
          simp [hn, hp]
        rw [postTasksQuote_of_input E evs st _ ct out sent _ hqi hloop]
        simp only [fanOutBranch_calls]
        refine ⟨_, rfl, ?_, ?_, ?_, ?_⟩
        · intro _
          exact ⟨_, by simp only [hhead]; rfl⟩
        · intro h
          exact absurd (by simp) h
        · intro respBody grBody ack t _ hpost hack hget htask hst
          have hok := postInterpret_ok E E.interpreter (E.json_UnmarshalMap ct.Input)
            respBody grBody ack t hpost hack hget htask hst
          rw [hp] at hok
          simp only [Prod.mk.injEq, Except.ok.injEq] at hok
          rw [hok.1, hok.2]
          rfl
        · intro _ _
          constructor
          · intro _
            simp
          · intro _
            exact ⟨_, by simp only [hhead]; exact List.mem_cons_self _ _⟩

theorem postTasks_quote_interpretation_witness :
    ∃ o, Concierge.postTasks sampleEnv
        [Concierge.SelectEvent.recv (sampleQuote (str "A")), Concierge.SelectEvent.timeout]
        Store.empty
        (Except.ok (sampleCreateTask (str "QUOTE") (str "\x7b\"utterance\":\"2kg\"\x7d"))) = some o ∧
      o.calls =
        [HTTPCall.Post (str "http://localhost:8083/tasks")
          (str "\x7b\"task_type\":\"INTERPRET\",\"input\":\x7b\"utterance\":\"2kg\"\x7d\x7d"),
        HTTPCall.Get (str "http://localhost:8083/tasks/t_1"),
        HTTPCall.Post (str "http://localhost:8081/tasks")
          (str "\x7b\"task_type\":\"QUOTE\",\"input\":\x7b\"from\":1,\"to\":2,\"parcel\":3\x7d\x7d"),
        HTTPCall.Post (str "http://localhost:8082/tasks")
          (str "\x7b\"task_type\":\"QUOTE\",\"input\":\x7b\"from\":1,\"to\":2,\"parcel\":3\x7d\x7d")] := by
  obtain ⟨o, ho, _, _, h3, _⟩ := postTasks_quote_interpretation sampleEnv Store.empty
    (sampleCreateTask (str "QUOTE") (str "\x7b\"utterance\":\"2kg\"\x7d"))
    [Concierge.SelectEvent.recv (sampleQuote (str "A")), Concierge.SelectEvent.timeout]
    (JSONMap.Map [(str "utterance", str "\"2kg\"")])
    (str "\x7b\"task_type\":\"INTERPRET\",\"input\":\x7b\"utterance\":\"2kg\"\x7d\x7d")
    (by decide) (by decide) (by decide) (Or.inl (by decide))
  refine ⟨o, ho, ?_⟩
  have hcalls := h3 (str "\x7b\"task_id\":\"t_1\",\"status\":\"SUCCEEDED\"\x7d") (str "task t_1")
    (str "t_1", str "SUCCEEDED")
    { TaskID := str "t_1", Status := StatusSucceeded
      Result := str "\x7b\"from\":1,\"to\":2,\"parcel\":3\x7d", Error := none }
    (Or.inl (by decide)) rfl rfl rfl rfl rfl
  rw [hcalls]
  decide

/-- C8 as stated fails on what is sent. For the QUOTE input `{"from": 1, "to": 2,
"parcel": 3}` (spaces after the colons and commas) none of the interpretation
conditions holds, and the two requests posted to the pricing agents carry the encoded
`CreateTask`, in which `json.Marshal` has compacted the input: the original input bytes
occur in neither request body. -/
theorem postTasks_quote_fanout_counterexample :
    ∃ o, Concierge.postTasks sampleEnv [Concierge.SelectEvent.timeout] Store.empty
        (Except.ok (sampleCreateTask (str "QUOTE")
          (str "\x7b\"from\": 1, \"to\": 2, \"parcel\": 3\x7d"))) = some o ∧
      sampleEnv.json_UnmarshalMap (str "\x7b\"from\": 1, \"to\": 2, \"parcel\": 3\x7d") =
        JSONMap.Map [(str "from", str "1"), (str "to", str "2"), (str "parcel", str "3")] ∧
      o.calls =
        [HTTPCall.Post (str "http://localhost:8081/tasks")
          (str "\x7b\"task_type\":\"QUOTE\",\"input\":\x7b\"from\":1,\"to\":2,\"parcel\":3\x7d\x7d"),
        HTTPCall.Post (str "http://localhost:8082/tasks")
          (str "\x7b\"task_type\":\"QUOTE\",\"input\":\x7b\"from\":1,\"to\":2,\"parcel\":3\x7d\x7d")] ∧
      ¬ (str "\x7b\"from\": 1, \"to\": 2, \"parcel\": 3\x7d" <:+:
        str "\x7b\"task_type\":\"QUOTE\",\"input\":\x7b\"from\":1,\"to\":2,\"parcel\":3\x7d\x7d") := by
  refine ⟨_, rfl, ?_, ?_, ?_⟩ <;> decide

/-- Every acknowledgement of the concierge's `POST /tasks` handler carries the same
task id, whatever the request, the store and the environment. -/
theorem postTasks_taskID_constant (E : Env) (evs : List Concierge.SelectEvent) (st : Store)
    (decoded : Except Bytes CreateTask) (o : Concierge.Outcome) (id : Bytes) (s : TaskStatus)
    (h : Concierge.postTasks E evs st decoded = some o) (hr : o.reply = Reply.Ack id s) :
    id = str "t_654321" := by
  have hid : str "t_" ++ Concierge.RandID = str "t_654321" := by decide
  unfold Concierge.postTasks at h
  cases decoded with
  | error err =>
    simp only [Option.some.injEq] at h
    subst h
    simp at hr
  | ok ct =>
    simp only [hid] at h
    by_cases hq : ct.TaskType = str "QUOTE"
    · simp only [hq, if_true] at h
      unfold Concierge.postTasksQuote at h
      simp only [] at h
      split at h
      · simp only [Option.some.injEq] at h
        subst h
        simp at hr
      · split at h
        · simp at h
        · simp only [Option.some.injEq] at h
          subst h
          simp only [Reply.Ack.injEq] at hr
          exact hr.1.symm
    · simp only [hq, if_false] at h
      by_cases hs : ct.TaskType = str "SHIP"
      · simp only [hs, if_true, Option.some.injEq] at h
        subst h
        unfold Concierge.postTasksShip at hr
        split at hr
        simp only [Reply.Ack.injEq] at hr
        exact hr.1.symm
      · simp only [hs, if_false, Option.some.injEq] at h
        subst h
        simp at hr

/-- A TASK_COMPLETED event for a stored task sets its status to SUCCEEDED and its
result to the event payload, whatever the status was. -/
theorem postTaskEvents_completed (st : Store) (id : Bytes) (t : Task) (ev : Event)
    (ht : st id = some t) (hev : ev.Event = str "TASK_COMPLETED") :
    (Concierge.postTaskEvents st id (some ev)).1 id =
      some { t with Status := StatusSucceeded, Result := ev.Payload } := by
  unfold Concierge.postTaskEvents
  simp [hev, ht, Store.put]

/-- C9 fails on the code: `RandID` returns a constant (its comment: "TODO: uuid"), so
every accepted request is given the same task id. A QUOTE and a SHIP request accepted
in turn by one concierge both get "t_654321", and after the second the record of the first is
gone: GET of that id returns the second task. The same holds for agent A with
"t_123456". -/
theorem taskID_not_unique :
    (∃ o1 o2,
      Concierge.postTasks sampleEnv
        [Concierge.SelectEvent.recv (sampleQuote (str "A")), Concierge.SelectEvent.timeout]
        Store.empty
        (Except.ok (sampleCreateTask (str "QUOTE")
          (str "\x7b\"from\":1,\"to\":2,\"parcel\":3\x7d"))) = some o1 ∧
      Concierge.postTasks sampleEnv [] o1.store
        (Except.ok (sampleCreateTask (str "SHIP") (str "\x7b\x7d"))) = some o2 ∧
      o1.reply = Reply.Ack (str "t_654321") StatusSucceeded ∧
      o2.reply = Reply.Ack (str "t_654321") StatusSucceeded ∧
      Concierge.getTask o1.store (str "t_654321") = Reply.Task 200
        { TaskID := str "t_654321", Status := StatusSucceeded
          Result := str "\x7b\"partial_failures\":[],\"quotes\":[\x7b\"carrier\":\"A\"\x7d]\x7d"
          Error := none } ∧
      Concierge.getTask o2.store (str "t_654321") = Reply.Task 200
        { TaskID := str "t_654321", Status := StatusSucceeded
          Result := str "\x7b\"task_id\":\"t_1\",\"status\":\"SUCCEEDED\"\x7d"
          Error := none }) ∧
    (AgentA.postTasks sampleMarshalMap Store.empty
        (Except.ok (sampleCreateTask (str "QUOTE") (str "1")))).2 =
      Reply.Ack (str "t_123456") StatusSucceeded ∧
    (AgentA.postTasks sampleMarshalMap
        (AgentA.postTasks sampleMarshalMap Store.empty
          (Except.ok (sampleCreateTask (str "QUOTE") (str "1")))).1
        (Except.ok (sampleCreateTask (str "SHIP") (str "2")))).2 =
      Reply.Ack (str "t_123456") StatusSucceeded ∧
    AgentA.getTask
        (AgentA.postTasks sampleMarshalMap Store.empty
          (Except.ok (sampleCreateTask (str "QUOTE") (str "1")))).1 (str "t_123456") ≠
      AgentA.getTask
        (AgentA.postTasks sampleMarshalMap
          (AgentA.postTasks sampleMarshalMap Store.empty
            (Except.ok (sampleCreateTask (str "QUOTE") (str "1")))).1
          (Except.ok (sampleCreateTask (str "SHIP") (str "2")))).1 (str "t_123456") := by
  refine ⟨⟨_, _, rfl, rfl, ?_, ?_, ?_, ?_⟩, ?_, ?_, ?_⟩ <;> decide

/-- C10 fails on the code: the event handler writes SUCCEEDED and the event payload
without consulting `CanTransition`. A task left FAILED by a SHIP whose delegate call
failed becomes SUCCEEDED when a TASK_COMPLETED event arrives for its id, and a
SUCCEEDED task has its result replaced, although `CanTransition` is false from both
terminal states. -/
theorem postTaskEvents_overwrites_terminal :
    (∃ o, Concierge.postTasks sampleEnvDown [] Store.empty
        (Except.ok (sampleCreateTask (str "SHIP") (str "1"))) = some o ∧
      o.store (str "t_654321") = some
        { TaskID := str "t_654321", Status := StatusFailed
          Result := str "\x7b\"code\":\"INTERNAL\",\"message\":\"connection refused\"\x7d"
          Error := none } ∧
      (Concierge.postTaskEvents o.store (str "t_654321")
        (some { Event := str "TASK_COMPLETED", TaskID := str "t_654321"
                Payload := str "\x7b\"x\":1\x7d" })).1 (str "t_654321") = some
        { TaskID := str "t_654321", Status := StatusSucceeded
          Result := str "\x7b\"x\":1\x7d", Error := none }) ∧
    (∃ o, Concierge.postTasks sampleEnv [] Store.empty
        (Except.ok (sampleCreateTask (str "SHIP") (str "1"))) = some o ∧
      o.store (str "t_654321") = some
        { TaskID := str "t_654321", Status := StatusSucceeded
          Result := str "\x7b\"task_id\":\"t_1\",\"status\":\"SUCCEEDED\"\x7d", Error := none } ∧
      (Concierge.postTaskEvents o.store (str "t_654321")
        (some { Event := str "TASK_COMPLETED", TaskID := str "t_654321"
                Payload := str "\x7b\"x\":1\x7d" })).1 (str "t_654321") = some
        { TaskID := str "t_654321", Status := StatusSucceeded
          Result := str "\x7b\"x\":1\x7d", Error := none }) ∧
    CanTransition StatusFailed StatusSucceeded = false ∧
    CanTransition StatusSucceeded StatusSucceeded = false := by
  refine ⟨⟨_, rfl, ?_, ?_⟩, ⟨_, rfl, ?_, ?_⟩, ?_, ?_⟩ <;> decide

/-! ## Canonical string -/

theorem str_newline : str "\n" = [10] := by decide

theorem hextable_getD_mem (i : Nat) (h : i < 16) : hextable.getD i 0 ∈ hextable := by
  interval_cases i <;> decide

theorem hex_EncodeToString_mem (x : Bytes) :
    ∀ b ∈ hex_EncodeToString x, b ∈ hextable := by
  induction x with
  | nil =>
    intro b hb
    simp [hex_EncodeToString] at hb
  | cons v rest ih =>
    intro b hb
    have hhi : v.val >>> 4 < 16 := by
      rw [Nat.shiftRight_eq_div_pow]
      have hv := v.isLt
      omega
    have hlo : v.val &&& 0x0f < 16 := Nat.lt_succ_of_le Nat.and_le_right
    simp only [hex_EncodeToString, List.mem_cons] at hb
    rcases hb with hb | hb | hb
    · rw [hb]
      exact hextable_getD_mem _ hhi
    · rw [hb]
      exact hextable_getD_mem _ hlo
    · exact ih b hb

theorem newline_not_mem_hex (x : Bytes) : (10 : Byte) ∉ hex_EncodeToString x := by
  intro h
  have hmem := hex_EncodeToString_mem x 10 h
  revert hmem
  decide

/-- Two strings cut at the first newline: when neither head holds a newline, equal
concatenations have equal heads and equal tails. -/
theorem append_newline_inj (a : Bytes) :
    ∀ (a' r r' : Bytes), (10 : Byte) ∉ a → (10 : Byte) ∉ a' →
      a ++ 10 :: r = a' ++ 10 :: r' → a = a' ∧ r = r' := by
  induction a with
  | nil =>
    intro a' r r' _ ha' h
    cases a' with
    | nil =>
      simp only [List.nil_append, List.cons.injEq, true_and] at h
      exact ⟨rfl, h⟩
    | cons c a' =>
      simp only [List.nil_append, List.cons_append, List.cons.injEq] at h
      exact absurd (by rw [← h.1]; exact List.mem_cons_self _ _) ha'
  | cons b a ih =>
    intro a' r r' ha ha' h
    cases a' with
    | nil =>
      simp only [List.nil_append, List.cons_append, List.cons.injEq] at h
      exact absurd (by rw [h.1]; exact List.mem_cons_self _ _) ha
    | cons c a' =>
      simp only [List.cons_append, List.cons.injEq] at h
      have hrec := ih a' r r' (fun hm => ha (List.mem_cons_of_mem _ hm))
        (fun hm => ha' (List.mem_cons_of_mem _ hm)) h.2
      exact ⟨by rw [h.1, hrec.1], hrec.2⟩

/-- C12. When method, path and raw query hold no newline (byte 10, the string "\n")
on either side, two equal canonical strings have the same method, path, raw query and
timestamp, and the two bodies have the same SHA-256 hex digest; that digest is 64
bytes long and holds no newline. -/
theorem CanonicalString_injective (L : Stdlib)
    (method path rawQuery body timestamp method' path' rawQuery' body' timestamp' : Bytes)
    (hm : (10 : Byte) ∉ method) (hp : (10 : Byte) ∉ path) (hq : (10 : Byte) ∉ rawQuery)
    (hm' : (10 : Byte) ∉ method') (hp' : (10 : Byte) ∉ path') (hq' : (10 : Byte) ∉ rawQuery')
    (h : CanonicalString L method path rawQuery body timestamp =
      CanonicalString L method' path' rawQuery' body' timestamp') :
    method = method' ∧ path = path' ∧ rawQuery = rawQuery' ∧ timestamp = timestamp' ∧
    hex_EncodeToString (L.sha256_Sum256 body).val =
      hex_EncodeToString (L.sha256_Sum256 body').val ∧
    (hex_EncodeToString (L.sha256_Sum256 body).val).length = 64 ∧
    (10 : Byte) ∉ hex_EncodeToString (L.sha256_Sum256 body).val := by
  have hlen : ∀ x : Bytes, (hex_EncodeToString (L.sha256_Sum256 x).val).length = 64 := by
    intro x
    rw [hex_EncodeToString_length, (L.sha256_Sum256 x).property]
  unfold CanonicalString at h
  simp only [str_newline, List.append_assoc, List.singleton_append] at h
  obtain ⟨h1, h⟩ := append_newline_inj _ _ _ _ hm hm' h
  obtain ⟨h2, h⟩ := append_newline_inj _ _ _ _ hp hp' h
  obtain ⟨h3, h⟩ := append_newline_inj _ _ _ _ hq hq' h
  obtain ⟨h4, h⟩ := append_newline_inj _ _ _ _ (newline_not_mem_hex _) (newline_not_mem_hex _) h
  exact ⟨h1, h2, h3, h, h4, hlen body, newline_not_mem_hex _⟩

theorem CanonicalString_injective_witness :
    str "POST" = str "POST" ∧ str "/tasks" = str "/tasks" ∧ str "a=1" = str "a=1" ∧
    str "1793491200" = str "1793491200" ∧
    hex_EncodeToString (sampleStdlib.sha256_Sum256 (str "ab")).val =
      hex_EncodeToString (sampleStdlib.sha256_Sum256 (str "ba")).val ∧
    (hex_EncodeToString (sampleStdlib.sha256_Sum256 (str "ab")).val).length = 64 ∧
    (10 : Byte) ∉ hex_EncodeToString (sampleStdlib.sha256_Sum256 (str "ab")).val :=
  CanonicalString_injective sampleStdlib
    (str "POST") (str "/tasks") (str "a=1") (str "ab") (str "1793491200")
    (str "POST") (str "/tasks") (str "a=1") (str "ba") (str "1793491200")
    (by decide) (by decide) (by decide) (by decide) (by decide) (by decide) (by decide)

/-! ## Unparseable request time -/

/-- A hex string is returned unchanged by `stripAlgoPrefix`: it cannot begin with the
letter `h` of "hmac-sha256:". -/
theorem stripAlgoPrefix_hex (x : Bytes) :
    stripAlgoPrefix (hex_EncodeToString x) = hex_EncodeToString x := by
  unfold stripAlgoPrefix
  simp only []
  by_cases hc : (hex_EncodeToString x).length > (str "hmac-sha256:").length ∧
      (hex_EncodeToString x).take (str "hmac-sha256:").length = str "hmac-sha256:"
  · exfalso
    have h104 : (104 : Byte) ∈ str "hmac-sha256:" := by decide
    rw [← hc.2] at h104
    have hmem := hex_EncodeToString_mem x 104 (List.mem_of_mem_take h104)
    revert hmem
    decide
  · rw [if_neg hc]

/-- A request from a known agent whose signature, once `stripAlgoPrefix` is applied, is
the hex HMAC of the canonical string, and which the clock-skew test lets through,
reaches the next handler. -/
theorem HMACMiddleware_serves_verified (L : Stdlib) (sp : SecretProvider)
    (clockSkew : Duration) (now : Time) (r : Request) (body secret : Bytes)
    (hbody : r.Body = some body)
    (hid : r.Header.Get HeaderAgentID ≠ [])
    (hsp : sp (r.Header.Get HeaderAgentID) = some secret)
    (hstrip : stripAlgoPrefix (r.Header.Get HeaderSignature) =
      MakeHMACSHA256 L secret
        (CanonicalString L r.Method r.Path r.RawQuery body (r.Header.Get HeaderRequestTime)))
    (hnoskew : requestTimeSkewed L clockSkew now (r.Header.Get HeaderRequestTime) = false) :
    HMACMiddleware L sp clockSkew now r = Response.ServeHTTP r := by
  have hsigne : r.Header.Get HeaderSignature ≠ [] := by
    intro h
    have h64 := MakeHMACSHA256_length L secret
      (CanonicalString L r.Method r.Path r.RawQuery body (r.Header.Get HeaderRequestTime))
    rw [← hstrip, h] at h64
    revert h64
    decide
  unfold HMACMiddleware
  simp only []
  rw [if_neg (by simp [hid, hsigne]), hnoskew]
  simp only [hsp, hbody, Bool.false_eq_true, if_false]
  have hv : VerifyHMACSHA256 L secret
      (r.Method ++ str "\n" ++ r.Path ++ str "\n" ++ r.RawQuery ++ str "\n" ++
        hex_EncodeToString (L.sha256_Sum256 body).val ++ str "\n" ++
        r.Header.Get HeaderRequestTime)
      (stripAlgoPrefix (r.Header.Get HeaderSignature)) = true := by
    rw [VerifyHMACSHA256_eq_true_iff, hstrip]
    rfl
  rw [if_neg (not_not.mpr hv)]
  congr 1
  cases r
  simp_all

/-- C13. A non-empty request-time header that is neither an RFC 3339 time nor a
base-10 64-bit integer does not parse, so for every tolerance the clock-skew check is
skipped; the request of a known agent whose signature (the hex HMAC of the canonical
string holding that raw header value, with or without the "hmac-sha256:" prefix) is
valid is handed to the next handler. -/
theorem HMACMiddleware_unparseable_time (L : Stdlib) (sp : SecretProvider)
    (clockSkew : Duration) (now : Time) (r : Request) (body secret : Bytes)
    (hbody : r.Body = some body)
    (_hts : r.Header.Get HeaderRequestTime ≠ [])
    (hrfc : L.time_ParseRFC3339 (r.Header.Get HeaderRequestTime) = none)
    (hint : strconv_ParseInt (r.Header.Get HeaderRequestTime) = none)
    (hid : r.Header.Get HeaderAgentID ≠ [])
    (hsp : sp (r.Header.Get HeaderAgentID) = some secret)
    (hsig : r.Header.Get HeaderSignature =
        MakeHMACSHA256 L secret
          (CanonicalString L r.Method r.Path r.RawQuery body
            (r.Header.Get HeaderRequestTime)) ∨
      r.Header.Get HeaderSignature = str "hmac-sha256:" ++
        MakeHMACSHA256 L secret
          (CanonicalString L r.Method r.Path r.RawQuery body
            (r.Header.Get HeaderRequestTime))) :
    parseHeaderTime L (r.Header.Get HeaderRequestTime) = none ∧
    requestTimeSkewed L clockSkew now (r.Header.Get HeaderRequestTime) = false ∧
    HMACMiddleware L sp clockSkew now r = Response.ServeHTTP r := by
  have hparse : parseHeaderTime L (r.Header.Get HeaderRequestTime) = none := by
    unfold parseHeaderTime
    rw [hrfc, hint]
  have hns : requestTimeSkewed L clockSkew now (r.Header.Get HeaderRequestTime) = false := by
    unfold requestTimeSkewed
    rw [hparse]
    split <;> rfl
  refine ⟨hparse, hns, ?_⟩
  apply HMACMiddleware_serves_verified L sp clockSkew now r body secret hbody hid hsp _ hns
  rcases hsig with h | h
  · rw [h]
    exact stripAlgoPrefix_hex _
  · rw [h]
    apply stripAlgoPrefix_append
    intro hnil
    have h64 := MakeHMACSHA256_length L secret
      (CanonicalString L r.Method r.Path r.RawQuery body (r.Header.Get HeaderRequestTime))
    rw [hnil] at h64
    revert h64
    decide

theorem HMACMiddleware_unparseable_time_witness :
    parseHeaderTime sampleStdlib (str "yesterday") = none ∧
    requestTimeSkewed sampleStdlib 120000000000 1793491200000000000 (str "yesterday") = false ∧
    HMACMiddleware sampleStdlib sampleSecrets 120000000000 1793491200000000000
        (sampleRequest (sampleSignature (str "yesterday")) (str "yesterday")) =
      Response.ServeHTTP (sampleRequest (sampleSignature (str "yesterday")) (str "yesterday")) :=
  HMACMiddleware_unparseable_time sampleStdlib sampleSecrets 120000000000 1793491200000000000
    (sampleRequest (sampleSignature (str "yesterday")) (str "yesterday"))
    (str "\x7b\x7d") (str "s3cret") rfl (by decide) rfl (by decide) (by decide) (by decide)
    (Or.inr (by decide))

/-! ## Stored task records -/

/-- The SHIP arm after a delegate call that succeeded: the stored task is SUCCEEDED
with the encoded response as result, and satisfies the invariant. -/
theorem postTasksShip_store_ok (E : Env) (st : Store) (taskID : Bytes) (ct : CreateTask)
    (respBody : Bytes)
    (hpost : E.http_Post (E.agentA ++ str "/tasks")
      (E.json_MarshalCreateTask
        { TaskType := str "SHIP", Input := ct.Input, ReplyURL := [], IdempotencyKey := [] }) =
      Except.ok respBody) :
    (Concierge.postTasksShip E st taskID ct).store taskID = some
      { TaskID := taskID, Status := StatusSucceeded
        Result := E.json_MarshalMap (E.json_DecodeMap respBody), Error := none } ∧
    TaskInvariant
      { TaskID := taskID, Status := StatusSucceeded
        Result := E.json_MarshalMap (E.json_DecodeMap respBody), Error := none } := by
  constructor
  · unfold Concierge.postTasksShip Concierge.postTask httpPost
    simp [hpost, Store.put]
  · simp [TaskInvariant]

/-- The SHIP arm after a delegate call that failed: the stored task is FAILED, its
`Error` is nil, and the encoded INTERNAL error payload is its `Result`. -/
theorem postTasksShip_store_error (E : Env) (st : Store) (taskID : Bytes) (ct : CreateTask)
    (err : Bytes)
    (hpost : E.http_Post (E.agentA ++ str "/tasks")
      (E.json_MarshalCreateTask
        { TaskType := str "SHIP", Input := ct.Input, ReplyURL := [], IdempotencyKey := [] }) =
      Except.error err) :
    (Concierge.postTasksShip E st taskID ct).store taskID = some
      { TaskID := taskID, Status := StatusFailed
        Result := E.json_MarshalError (NewError ErrInternal err), Error := none } := by
  unfold Concierge.postTasksShip Concierge.postTask httpPost
  simp [hpost, Store.put]

/-- C11 fails on the code. After a SHIP request whose delegate call fails, the task the
concierge stores is FAILED with a nil `Error` and with the encoded INTERNAL error
payload as its `Result`: a result is present in a FAILED task and no error is, so the
invariant is broken. Agent A's handler, on its failure path, sets `Error` and leaves
`Result` empty, which satisfies the invariant. -/
theorem postTasks_ship_failure_breaks_invariant :
    (∃ o t, Concierge.postTasks sampleEnvDown [] Store.empty
        (Except.ok (sampleCreateTask (str "SHIP") (str "\x7b\x7d"))) = some o ∧
      o.store (str "t_654321") = some t ∧
      t.Status = StatusFailed ∧
      t.Error = none ∧
      t.Result = str "\x7b\"code\":\"INTERNAL\",\"message\":\"connection refused\"\x7d" ∧
      ¬ TaskInvariant t) ∧
    (∃ t, (AgentA.postTasks sampleMarshalMap Store.empty
        (Except.ok (sampleCreateTask (str "RANK") (str "\x7b\x7d")))).1 (str "t_123456") = some t ∧
      t.Status = StatusFailed ∧
      t.Error = some (NewError ErrValidationFailed (str "unsupported task_type")) ∧
      t.Result = [] ∧
      TaskInvariant t) := by
  refine ⟨⟨_, { TaskID := str "t_654321", Status := StatusFailed
                Result := str "\x7b\"code\":\"INTERNAL\",\"message\":\"connection refused\"\x7d"
                Error := none }, rfl, by decide, rfl, rfl, rfl, ?_⟩,
    ⟨{ TaskID := str "t_123456", Status := StatusFailed, Result := []
       Error := some (NewError ErrValidationFailed (str "unsupported task_type")) },
      by decide, rfl, rfl, rfl, ?_⟩⟩
  · unfold TaskInvariant
    intro h
    have h1 := h.1 (by decide)
    revert h1
    decide
  · unfold TaskInvariant
    refine ⟨fun h => absurd rfl h, fun _ => rfl, fun h => h.1 rfl⟩

end A2A
